import Mathlib

/-
Shallow embedding of the execution core of thidy-lang (src/src/lib.rs and
src/src/vm.rs): value and type model, blocks, upvalues, the runtime
evaluator `eval_op`, the typechecking evaluator `check_op`, and the
typecheck driver.

Modelling conventions, chosen once and used throughout:
* Rust `Rc<RefCell<_>>` shared mutable cells become explicit heaps inside
  the machine state: `cells` for `UpValue` cells, `instances` for
  blob-instance field vectors, `blocks` for compiled blocks.  Values hold
  indices into these heaps, so sharing and in-place mutation are preserved.
* Rust panics (`unwrap`, `unreachable!`, out-of-bounds indexing, integer
  division by zero, usize underflow) are modelled by the distinguished
  outcome `abort`, which is different from returning an `Error` value.
* `i64` is modelled as the unbounded `Int` (no claim under verification
  observes overflow), `f64` as `Rat` (no claim observes IEEE-754-specific
  behaviour such as inf/nan), and `Vec::with_capacity(n)` as reserving
  exactly `n` slots.
* `HashMap` iteration order (used only when a blob's fields are poured
  into a fresh instance during typecheck) is modelled as the layout-list
  order; the choice is unobservable for the properties proved here.
* Rust `format!` messages that interpolate `Debug` output are reproduced
  via `Repr`; the exact rendering of payloads is not part of any claim.
-/

set_option maxHeartbeats 1000000

namespace Thidy

/-- Static types (`Type` in src/src/lib.rs). -/
inductive Ty where
  | void
  | unknownType
  | int
  | float
  | bool
  | string
  | function (args : List Ty) (ret : Ty)
  | blob (id : Nat)
  | blobInstance (id : Nat)
  deriving Repr

mutual

/-- `PartialEq for Type` (src/src/lib.rs): structural equality where
`UnknownType` is equal to nothing, including itself (the catch-all arm). -/
def tyEq : Ty → Ty → Bool
  | Ty.void, Ty.void => true
  | Ty.blobInstance a, Ty.blobInstance b => a == b
  | Ty.blob a, Ty.blob b => a == b
  | Ty.int, Ty.int => true
  | Ty.float, Ty.float => true
  | Ty.bool, Ty.bool => true
  | Ty.string, Ty.string => true
  | Ty.function xa ra, Ty.function xb rb => tyEqList xa xb && tyEq ra rb
  | _, _ => false

/-- `Vec<Type>` equality: pairwise `tyEq` on lists of equal length. -/
def tyEqList : List Ty → List Ty → Bool
  | [], [] => true
  | x :: xs, y :: ys => tyEq x y && tyEqList xs ys
  | _, _ => false

end

/-- `Type::is_unkown` (source spelling preserved). -/
def Ty.is_unkown : Ty → Bool
  | Ty.unknownType => true
  | _ => false

/-- Runtime values (`Value` in src/src/lib.rs).  `blobInstance` carries an
index into the instance heap, `function` carries upvalue-cell indices and a
block index; the `unkown` spelling follows the source. -/
inductive Value where
  | blob (id : Nat)
  | blobInstance (id : Nat) (ref : Nat)
  | float (f : Rat)
  | int (i : Int)
  | bool (b : Bool)
  | string (s : String)
  | function (ups : List Nat) (block : Nat)
  | externFunction (slot : Nat)
  | unkown
  | nil
  deriving Repr, DecidableEq

/-- `Value::identity` — canonical representative used by the typechecker. -/
def Value.identity : Value → Value
  | Value.float _ => Value.float 1
  | Value.int _ => Value.int 1
  | Value.bool _ => Value.bool true
  | v => v

/-- Opcodes (`Op` in src/src/lib.rs).  `ret` is `Op::Return`. -/
inductive Op where
  | illegal
  | pop
  | popUpvalue
  | constant (v : Value)
  | get (field : String)
  | set (field : String)
  | add
  | sub
  | mul
  | div
  | neg
  | and
  | or
  | not
  | jmp (target : Nat)
  | jmpFalse (target : Nat)
  | equal
  | less
  | greater
  | assert
  | unreachable
  | readLocal (slot : Nat)
  | assignLocal (slot : Nat)
  | readUpvalue (slot : Nat)
  | assignUpvalue (slot : Nat)
  | define (ty : Ty)
  | call (numArgs : Nat)
  | print
  | ret
  | yield
  deriving Repr

/-- A single upvalue cell (`UpValue` in src/src/lib.rs): `slot == 0` is the
closed-state sentinel. -/
structure UpValue where
  slot : Nat
  value : Value
  deriving Repr, DecidableEq

def UpValue.new (slot : Nat) : UpValue :=
  { slot := slot, value := Value.nil }

def UpValue.is_closed (u : UpValue) : Bool := u.slot == 0

def UpValue.close (_u : UpValue) (v : Value) : UpValue :=
  { slot := 0, value := v }

/-- `UpValue::get`: read through the cell; an out-of-range open slot is a
Rust indexing panic, hence `none`. -/
def UpValue.get (u : UpValue) (stack : List Value) : Option Value :=
  if u.is_closed then some u.value else stack[u.slot]?

/-- A compiled block (`Block` in src/src/lib.rs).  `ups` is the capture
descriptor: entries `(slot, is_up, ty)`. -/
structure Block where
  ty : Ty
  ups : List (Nat × Bool × Ty)
  name : String
  file : String
  ops : List Op
  line_offsets : List (Nat × Nat)
  line : Nat
  deriving Repr

/-- Lookup in a `Nat`-keyed association list (models `HashMap<usize, _>`
access). -/
def lookupNat (k : Nat) : List (Nat × Nat) → Option Nat
  | [] => none
  | (a, b) :: rest => if a = k then some b else lookupNat k rest

/-- `Block::line`: walk from `ip` down to 0 looking for a line-map entry. -/
def Block.lineAt (b : Block) : Nat → Nat
  | 0 =>
    match lookupNat 0 b.line_offsets with
    | some l => l
    | none => 0
  | i + 1 =>
    match lookupNat (i + 1) b.line_offsets with
    | some l => l
    | none => b.lineAt i

/-- `Block::args`: the argument types of the block's own signature; `none`
models the `unreachable!` panic when `ty` is not a function type. -/
def Block.args (b : Block) : Option (List Ty) :=
  match b.ty with
  | Ty.function args _ => some args
  | _ => none

/-- `Block::ret`: the return type of the block's own signature. -/
def Block.ret (b : Block) : Option Ty :=
  match b.ty with
  | Ty.function _ r => some r
  | _ => none

/-- `Block::from_type`. -/
def blockFromType (t : Ty) : Block :=
  { ty := t, ups := [], name := "/empty/", file := "", ops := [],
    line_offsets := [], line := 0 }

/-- A blob layout (`Blob` in src/src/lib.rs): `name_to_field` maps a field
name to `(slot, type)`; compile-time insertion keeps names distinct. -/
structure Blob where
  name : String
  name_to_field : List (String × Nat × Ty)
  deriving Repr

def lookupField (field : String) : List (String × Nat × Ty) → Option (Nat × Ty)
  | [] => none
  | (n, p) :: rest => if n = field then some p else lookupField field rest

/-- Error kinds.  Modelled from the spec: the error module (src/error.rs)
is not among the provided sources; §7 of the spec lists the taxonomy used
by the VM (`Unreachable`, `Assert`, `InvalidProgram`,
`RuntimeTypeError(op, values)`, `TypeError(op, types)`) plus the
compiler-side `SyntaxError`/`CompileError`. -/
inductive ErrorKind where
  | unreachable
  | assert
  | invalidProgram
  | runtimeTypeError (op : Op) (values : List Value)
  | typeError (op : Op) (types : List Ty)
  | syntaxError
  | compileError
  deriving Repr

/-- The error envelope.  Modelled from the spec (§6): `{kind, file, line,
message?}`, with `(file, line)` derived from the active frame's block line
map at the failing ip — which is exactly how `VM::error` in src/src/vm.rs
fills it in. -/
structure Error where
  kind : ErrorKind
  file : String
  line : Nat
  message : Option String
  deriving Repr

/-- A call-stack frame (`Frame` in src/src/vm.rs); `block` is a heap index. -/
structure Frame where
  stack_offset : Nat
  block : Nat
  ip : Nat
  deriving Repr, DecidableEq

/-- Host extern function ABI (`RustFunction` in src/src/lib.rs). -/
def RustFunction : Type :=
  List Value → Bool → Except ErrorKind Value

/-- A compiled program (`Prog` in src/src/lib.rs). -/
structure Prog where
  blocks : List Block
  blobs : List Blob
  functions : List RustFunction

/-- The machine state (`VM` in src/src/vm.rs).  `cells`, `instances` and
`blocks` are the heaps backing the `Rc<RefCell<_>>` sharing of upvalue
cells, blob-instance vectors and blocks; `upvalues` is the open-upvalue
registry mapping an absolute stack slot to a cell index.  The
`print_blocks`/`print_ops` diagnostics flags are omitted: they only gate
debug output. -/
structure VM where
  upvalues : List (Nat × Nat)
  stack : List Value
  frames : List Frame
  blobs : List Blob
  extern_functions : List RustFunction
  cells : List UpValue
  instances : List (List Value)
  blocks : List Block

/-- `VM::new` (with empty heaps). -/
def VM.new : VM :=
  { upvalues := [], stack := [], frames := [], blobs := [],
    extern_functions := [], cells := [], instances := [], blocks := [] }

/-- Outcome of one opcode at runtime (`OpResult`), together with the error
channel of `eval_op` and the `abort` outcome for Rust panics. -/
inductive OpResult where
  | yield
  | cont
  | done
  deriving Repr, DecidableEq

inductive EvalRes where
  | ok (r : OpResult) (s : VM)
  | err (e : Error) (s : VM)
  | abort

/-- `Vec::pop` on the operand stack (top is the last element). -/
def popStack (l : List Value) : Option (Value × List Value) :=
  match l.getLast? with
  | some v => some (v, l.dropLast)
  | none => none

/-- `VM::pop_twice`: remove the two topmost values, returning them in
stack order (lower, upper, rest); `none` is the `remove` panic. -/
def popTwice (l : List Value) : Option (Value × Value × List Value) :=
  match popStack l with
  | none => none
  | some (y, l1) =>
    match popStack l1 with
    | none => none
    | some (x, l2) => some (x, y, l2)

/-- `VM::error`: build an `Error` from the active frame's block metadata;
`none` models the `frames.last().unwrap()` panic (or a dangling block
index, impossible in the Rust original where frames hold `Rc<Block>`). -/
def VM.mkError (s : VM) (kind : ErrorKind) (message : Option String) :
    Option Error :=
  match s.frames.getLast? with
  | none => none
  | some f =>
    match s.blocks[f.block]? with
    | none => none
    | some b =>
      some { kind := kind, file := b.file, line := b.lineAt f.ip,
             message := message }

/-- The `error!` macro: produce the error result (or abort if the error
constructor itself would panic). -/
def errE (s : VM) (k : ErrorKind) (m : Option String) : EvalRes :=
  match s.mkError k m with
  | some e => EvalRes.err e s
  | none => EvalRes.abort

/-- `self.frame_mut().ip += 1` — the shared epilogue of `eval_op`. -/
def VM.bumpIp (s : VM) : Option VM :=
  match s.frames.getLast? with
  | none => none
  | some f =>
    some { s with frames := s.frames.dropLast ++ [{ f with ip := f.ip + 1 }] }

def okBump (s : VM) : EvalRes :=
  match s.bumpIp with
  | some s' => EvalRes.ok OpResult.cont s'
  | none => EvalRes.abort

/-- `self.frame_mut().ip = target` for the jump opcodes. -/
def VM.setIp (s : VM) (target : Nat) : Option VM :=
  match s.frames.getLast? with
  | none => none
  | some f =>
    some { s with frames := s.frames.dropLast ++ [{ f with ip := target }] }

/-- `VM::drop_upvalue`: close the registered open cell for `slot` with
`value` and remove the registry entry; `none` models the `unreachable!`
panic taken when no upvalue is registered over `slot`. -/
def VM.drop_upvalue (s : VM) (slot : Nat) (value : Value) : Option VM :=
  match lookupNat slot s.upvalues with
  | some cid =>
    match s.cells[cid]? with
    | some c =>
      some { s with cells := s.cells.set cid (c.close value),
                    upvalues := s.upvalues.filter (fun p => p.1 != slot) }
    | none => none
  | none => none

/-- `VM::find_upvalue`: the registered cell for `slot`, creating (and
registering) a fresh open cell when none exists. -/
def VM.find_upvalue (s : VM) (slot : Nat) : Nat × VM :=
  match lookupNat slot s.upvalues with
  | some cid => (cid, s)
  | none =>
    (s.cells.length,
     { s with cells := s.cells ++ [UpValue.new slot],
              upvalues := s.upvalues ++ [(slot, s.cells.length)] })

/-- Closure materialization: build the capture list of a function literal
from the block's capture descriptor (the loop in `Op::Constant`).  `none`
models the panics (`unreachable!` when the value at the frame offset is
not a function, or an out-of-range capture index). -/
def materializeUps (offset : Nat) :
    List (Nat × Bool × Ty) → VM → Option (List Nat × VM)
  | [], s => some ([], s)
  | (slot, isUp, _) :: rest, s =>
    if isUp then
      match s.stack[offset]? with
      | some (Value.function localUps _) =>
        match localUps[slot]? with
        | some cid =>
          match materializeUps offset rest s with
          | some (l, s') => some (cid :: l, s')
          | none => none
        | none => none
      | _ => none
    else
      match materializeUps offset rest (s.find_upvalue (offset + slot)).2 with
      | some (l, s') => some ((s.find_upvalue (offset + slot)).1 :: l, s')
      | none => none

/-- The `Op::Return` sweep: for each slot in the given list (in order),
close the registered open upvalue, if any, with the slot's current stack
value. -/
def sweepClose : List Nat → VM → Option VM
  | [], s => some s
  | slot :: rest, s =>
    if (lookupNat slot s.upvalues).isSome then
      match s.stack[slot]? with
      | some v =>
        match s.drop_upvalue slot v with
        | some s' => sweepClose rest s'
        | none => none
      | none => none
    else sweepClose rest s

/-- Lexicographic order on strings by code point — the order Rust's `<`
on `String` induces (byte order on UTF-8 agrees with code-point order). -/
def charListLt : List Char → List Char → Bool
  | [], [] => false
  | [], _ :: _ => true
  | _ :: _, [] => false
  | a :: xs, b :: ys =>
    if a < b then true else if b < a then false else charListLt xs ys

def strLt (a b : String) : Bool := charListLt a.data b.data

/-- Rust `bool` order: `false < true`. -/
def boolLt (a b : Bool) : Bool := !a && b

/-- `Op::Constant`. -/
def evalConstant (s : VM) (v : Value) : EvalRes :=
  match s.frames.getLast? with
  | none => EvalRes.abort
  | some f =>
    match v with
    | Value.function _ blockId =>
      match s.blocks[blockId]? with
      | none => EvalRes.abort
      | some b =>
        match materializeUps f.stack_offset b.ups s with
        | some (ups, s') =>
          okBump { s' with stack := s'.stack ++ [Value.function ups blockId] }
        | none => EvalRes.abort
    | _ => okBump { s with stack := s.stack ++ [v] }

/-- `Op::Get` at runtime. -/
def evalGet (s : VM) (field : String) : EvalRes :=
  match popStack s.stack with
  | none => EvalRes.abort
  | some (inst, st) =>
    match inst with
    | Value.blobInstance ty ref =>
      match s.blobs[ty]? with
      | none => EvalRes.abort
      | some blob =>
        match lookupField field blob.name_to_field with
        | none => EvalRes.abort
        | some (slot, _) =>
          match s.instances[ref]? with
          | none => EvalRes.abort
          | some vals =>
            match vals[slot]? with
            | none => EvalRes.abort
            | some v => okBump { s with stack := st ++ [v] }
    | _ =>
      errE { s with stack := st }
        (ErrorKind.runtimeTypeError (Op.get field) [inst]) none

/-- `Op::Set` at runtime.  Note: the non-instance error arm builds its
payload with `Op::Get(field)` — exactly as the source does. -/
def evalSet (s : VM) (field : String) : EvalRes :=
  match popStack s.stack with
  | none => EvalRes.abort
  | some (value, st1) =>
    match popStack st1 with
    | none => EvalRes.abort
    | some (inst, st2) =>
      match inst with
      | Value.blobInstance ty ref =>
        match s.blobs[ty]? with
        | none => EvalRes.abort
        | some blob =>
          match lookupField field blob.name_to_field with
          | none => EvalRes.abort
          | some (slot, _) =>
            match s.instances[ref]? with
            | none => EvalRes.abort
            | some vals =>
              if slot < vals.length then
                okBump { s with stack := st2,
                                instances := s.instances.set ref (vals.set slot value) }
              else EvalRes.abort
      | _ =>
        errE { s with stack := st2 }
          (ErrorKind.runtimeTypeError (Op.get field) [inst]) none

/-- `Op::Neg`. -/
def evalNeg (s : VM) : EvalRes :=
  match popStack s.stack with
  | none => EvalRes.abort
  | some (v, st) =>
    match v with
    | Value.float a => okBump { s with stack := st ++ [Value.float (-a)] }
    | Value.int a => okBump { s with stack := st ++ [Value.int (-a)] }
    | a =>
      errE { s with stack := st } (ErrorKind.runtimeTypeError Op.neg [a]) none

/-- `Op::Add`. -/
def evalAdd (s : VM) : EvalRes :=
  match popTwice s.stack with
  | none => EvalRes.abort
  | some (a, b, st) =>
    match a, b with
    | Value.float x, Value.float y =>
      okBump { s with stack := st ++ [Value.float (x + y)] }
    | Value.int x, Value.int y =>
      okBump { s with stack := st ++ [Value.int (x + y)] }
    | Value.string x, Value.string y =>
      okBump { s with stack := st ++ [Value.string (x ++ y)] }
    | a, b =>
      errE { s with stack := st } (ErrorKind.runtimeTypeError Op.add [a, b]) none

/-- `Op::Sub`. -/
def evalSub (s : VM) : EvalRes :=
  match popTwice s.stack with
  | none => EvalRes.abort
  | some (a, b, st) =>
    match a, b with
    | Value.float x, Value.float y =>
      okBump { s with stack := st ++ [Value.float (x - y)] }
    | Value.int x, Value.int y =>
      okBump { s with stack := st ++ [Value.int (x - y)] }
    | a, b =>
      errE { s with stack := st } (ErrorKind.runtimeTypeError Op.sub [a, b]) none

/-- `Op::Mul`. -/
def evalMul (s : VM) : EvalRes :=
  match popTwice s.stack with
  | none => EvalRes.abort
  | some (a, b, st) =>
    match a, b with
    | Value.float x, Value.float y =>
      okBump { s with stack := st ++ [Value.float (x * y)] }
    | Value.int x, Value.int y =>
      okBump { s with stack := st ++ [Value.int (x * y)] }
    | a, b =>
      errE { s with stack := st } (ErrorKind.runtimeTypeError Op.mul [a, b]) none

/-- `Op::Div`.  Integer division by zero is a Rust panic (`abort`); the
float case follows the `Rat` abstraction. -/
def evalDiv (s : VM) : EvalRes :=
  match popTwice s.stack with
  | none => EvalRes.abort
  | some (a, b, st) =>
    match a, b with
    | Value.float x, Value.float y =>
      okBump { s with stack := st ++ [Value.float (x / y)] }
    | Value.int x, Value.int y =>
      if y = 0 then EvalRes.abort
      else okBump { s with stack := st ++ [Value.int (Int.tdiv x y)] }
    | a, b =>
      errE { s with stack := st } (ErrorKind.runtimeTypeError Op.div [a, b]) none

/-- `Op::Equal`. -/
def evalEqual (s : VM) : EvalRes :=
  match popTwice s.stack with
  | none => EvalRes.abort
  | some (a, b, st) =>
    match a, b with
    | Value.float x, Value.float y =>
      okBump { s with stack := st ++ [Value.bool (x == y)] }
    | Value.int x, Value.int y =>
      okBump { s with stack := st ++ [Value.bool (x == y)] }
    | Value.string x, Value.string y =>
      okBump { s with stack := st ++ [Value.bool (x == y)] }
    | Value.bool x, Value.bool y =>
      okBump { s with stack := st ++ [Value.bool (x == y)] }
    | a, b =>
      errE { s with stack := st } (ErrorKind.runtimeTypeError Op.equal [a, b]) none

/-- `Op::Less`. -/
def evalLess (s : VM) : EvalRes :=
  match popTwice s.stack with
  | none => EvalRes.abort
  | some (a, b, st) =>
    match a, b with
    | Value.float x, Value.float y =>
      okBump { s with stack := st ++ [Value.bool (Rat.blt x y)] }
    | Value.int x, Value.int y =>
      okBump { s with stack := st ++ [Value.bool (decide (x < y))] }
    | Value.string x, Value.string y =>
      okBump { s with stack := st ++ [Value.bool (strLt x y)] }
    | Value.bool x, Value.bool y =>
      okBump { s with stack := st ++ [Value.bool (boolLt x y)] }
    | a, b =>
      errE { s with stack := st } (ErrorKind.runtimeTypeError Op.less [a, b]) none

/-- `Op::Greater`. -/
def evalGreater (s : VM) : EvalRes :=
  match popTwice s.stack with
  | none => EvalRes.abort
  | some (a, b, st) =>
    match a, b with
    | Value.float x, Value.float y =>
      okBump { s with stack := st ++ [Value.bool (Rat.blt y x)] }
    | Value.int x, Value.int y =>
      okBump { s with stack := st ++ [Value.bool (decide (y < x))] }
    | Value.string x, Value.string y =>
      okBump { s with stack := st ++ [Value.bool (strLt y x)] }
    | Value.bool x, Value.bool y =>
      okBump { s with stack := st ++ [Value.bool (boolLt y x)] }
    | a, b =>
      errE { s with stack := st } (ErrorKind.runtimeTypeError Op.greater [a, b]) none

/-- `Op::And`. -/
def evalAnd (s : VM) : EvalRes :=
  match popTwice s.stack with
  | none => EvalRes.abort
  | some (a, b, st) =>
    match a, b with
    | Value.bool x, Value.bool y =>
      okBump { s with stack := st ++ [Value.bool (x && y)] }
    | a, b =>
      errE { s with stack := st } (ErrorKind.runtimeTypeError Op.and [a, b]) none

/-- `Op::Or`. -/
def evalOr (s : VM) : EvalRes :=
  match popTwice s.stack with
  | none => EvalRes.abort
  | some (a, b, st) =>
    match a, b with
    | Value.bool x, Value.bool y =>
      okBump { s with stack := st ++ [Value.bool (x || y)] }
    | a, b =>
      errE { s with stack := st } (ErrorKind.runtimeTypeError Op.or [a, b]) none

/-- `Op::Not`. -/
def evalNot (s : VM) : EvalRes :=
  match popStack s.stack with
  | none => EvalRes.abort
  | some (v, st) =>
    match v with
    | Value.bool a => okBump { s with stack := st ++ [Value.bool (!a)] }
    | a =>
      errE { s with stack := st } (ErrorKind.runtimeTypeError Op.not [a]) none

/-- `Op::Call`. -/
def evalCall (s : VM) (numArgs : Nat) : EvalRes :=
  if s.stack.length < numArgs + 1 then EvalRes.abort
  else
    let newBase := s.stack.length - 1 - numArgs
    match s.stack[newBase]? with
    | none => EvalRes.abort
    | some callee =>
      match callee with
      | Value.blob blobId =>
        match s.blobs[blobId]? with
        | none => EvalRes.abort
        | some blob =>
          okBump { s with
            stack := s.stack.dropLast ++
              [Value.blobInstance blobId s.instances.length],
            instances := s.instances ++
              [List.replicate blob.name_to_field.length Value.nil] }
      | Value.function _ blockId =>
        match s.blocks[blockId]? with
        | none => EvalRes.abort
        | some b =>
          match b.args with
          | none => EvalRes.abort
          | some args =>
            if args.length ≠ numArgs then
              errE s ErrorKind.invalidProgram
                (some ("Invalid number of arguments, got " ++
                  toString numArgs ++ " expected " ++
                  toString args.length ++ "."))
            else
              EvalRes.ok OpResult.cont
                { s with frames := s.frames ++
                    [{ stack_offset := newBase, block := blockId, ip := 0 }] }
      | Value.externFunction slot =>
        match s.extern_functions[slot]? with
        | none => EvalRes.abort
        | some f =>
          match f (s.stack.drop (newBase + 1)) false with
          | Except.ok v =>
            okBump { s with stack := s.stack.take newBase ++ [v] }
          | Except.error ek =>
            errE s ek (some ("Wrong arguments to external function"))
      | _ => EvalRes.abort

/-- `Op::Return`. -/
def evalReturn (s : VM) : EvalRes :=
  match s.frames.getLast? with
  | none => EvalRes.abort
  | some last =>
    let s1 : VM := { s with frames := s.frames.dropLast }
    if s1.frames.isEmpty then EvalRes.ok OpResult.done s1
    else
      match popStack s1.stack with
      | none => EvalRes.abort
      | some (r, st) =>
        if last.stack_offset < st.length then
          let s2 : VM := { s1 with stack := st.set last.stack_offset r }
          match sweepClose
              (List.range' (last.stack_offset + 1)
                (st.length - (last.stack_offset + 1))) s2 with
          | none => EvalRes.abort
          | some s3 =>
            okBump { s3 with stack := s3.stack.take (last.stack_offset + 1) }
        else EvalRes.abort

/-- `VM::eval_op` — the runtime dispatcher. -/
def evalOp (s : VM) : Op → EvalRes
  | Op.illegal => errE s ErrorKind.invalidProgram none
  | Op.unreachable => errE s ErrorKind.unreachable none
  | Op.pop =>
    match popStack s.stack with
    | none => EvalRes.abort
    | some (_, st) => okBump { s with stack := st }
  | Op.yield =>
    match s.bumpIp with
    | some s' => EvalRes.ok OpResult.yield s'
    | none => EvalRes.abort
  | Op.popUpvalue =>
    match popStack s.stack with
    | none => EvalRes.abort
    | some (v, st) =>
      match VM.drop_upvalue { s with stack := st } st.length v with
      | some s' => okBump s'
      | none => EvalRes.abort
  | Op.constant v => evalConstant s v
  | Op.get field => evalGet s field
  | Op.set field => evalSet s field
  | Op.neg => evalNeg s
  | Op.add => evalAdd s
  | Op.sub => evalSub s
  | Op.mul => evalMul s
  | Op.div => evalDiv s
  | Op.equal => evalEqual s
  | Op.less => evalLess s
  | Op.greater => evalGreater s
  | Op.and => evalAnd s
  | Op.or => evalOr s
  | Op.not => evalNot s
  | Op.jmp target =>
    match s.setIp target with
    | some s' => EvalRes.ok OpResult.cont s'
    | none => EvalRes.abort
  | Op.jmpFalse target =>
    match popStack s.stack with
    | some (Value.bool false, st) =>
      match VM.setIp { s with stack := st } target with
      | some s' => EvalRes.ok OpResult.cont s'
      | none => EvalRes.abort
    | some (_, st) => okBump { s with stack := st }
    | none => okBump s
  | Op.assert =>
    match popStack s.stack with
    | some (Value.bool false, st) =>
      errE { s with stack := st } ErrorKind.assert none
    | some (_, st) => okBump { s with stack := st ++ [Value.bool true] }
    | none => okBump { s with stack := s.stack ++ [Value.bool true] }
  | Op.readUpvalue slot =>
    match s.frames.getLast? with
    | none => EvalRes.abort
    | some f =>
      match s.stack[f.stack_offset]? with
      | some (Value.function ups _) =>
        match ups[slot]? with
        | none => EvalRes.abort
        | some cid =>
          match s.cells[cid]? with
          | none => EvalRes.abort
          | some c =>
            match c.get s.stack with
            | none => EvalRes.abort
            | some v => okBump { s with stack := s.stack ++ [v] }
      | _ => EvalRes.abort
  | Op.assignUpvalue slot =>
    match s.frames.getLast? with
    | none => EvalRes.abort
    | some f =>
      match popStack s.stack with
      | none => EvalRes.abort
      | some (v, st) =>
        match st[f.stack_offset]? with
        | some (Value.function ups _) =>
          match ups[slot]? with
          | none => EvalRes.abort
          | some cid =>
            match s.cells[cid]? with
            | none => EvalRes.abort
            | some c =>
              if c.is_closed then
                okBump { s with stack := st,
                                cells := s.cells.set cid { c with value := v } }
              else if c.slot < st.length then
                okBump { s with stack := st.set c.slot v }
              else EvalRes.abort
        | _ => EvalRes.abort
  | Op.readLocal slot =>
    match s.frames.getLast? with
    | none => EvalRes.abort
    | some f =>
      match s.stack[f.stack_offset + slot]? with
      | none => EvalRes.abort
      | some v => okBump { s with stack := s.stack ++ [v] }
  | Op.assignLocal slot =>
    match s.frames.getLast? with
    | none => EvalRes.abort
    | some f =>
      match popStack s.stack with
      | none => EvalRes.abort
      | some (v, st) =>
        if f.stack_offset + slot < st.length then
          okBump { s with stack := st.set (f.stack_offset + slot) v }
        else EvalRes.abort
  | Op.define _ => okBump s
  | Op.call numArgs => evalCall s numArgs
  | Op.print =>
    match popStack s.stack with
    | none => EvalRes.abort
    | some (_, st) => okBump { s with stack := st }
  | Op.ret => evalReturn s

/-- Result of one `check_op` step: unlike the runtime, a typecheck error
is caught by the driver loop, so the mutated state is carried along. -/
inductive CheckRes where
  | ok (s : VM)
  | err (e : Error) (s : VM)
  | abort

def errC (s : VM) (k : ErrorKind) (m : Option String) : CheckRes :=
  match s.mkError k m with
  | some e => CheckRes.err e s
  | none => CheckRes.abort

def bumpOk (s : VM) : CheckRes :=
  match s.bumpIp with
  | some s' => CheckRes.ok s'
  | none => CheckRes.abort

/-- `Value::as_type`; reading a function value's type dereferences its
block, hence the state argument (`none` models a dangling block index,
impossible in the Rust original). -/
def asType (s : VM) : Value → Option Ty
  | Value.blobInstance i _ => some (Ty.blobInstance i)
  | Value.blob i => some (Ty.blob i)
  | Value.float _ => some Ty.float
  | Value.int _ => some Ty.int
  | Value.bool _ => some Ty.bool
  | Value.string _ => some Ty.string
  | Value.function _ b => (s.blocks[b]?).map (fun bl => bl.ty)
  | Value.externFunction _ => some Ty.void
  | Value.unkown => some Ty.unknownType
  | Value.nil => some Ty.void

/-- `impl From<&Value> for Type` — differs from `as_type` on `Unkown`
(the catch-all arm maps it to `Void`). -/
def typeFromValue (s : VM) : Value → Option Ty
  | Value.blobInstance i _ => some (Ty.blobInstance i)
  | Value.blob i => some (Ty.blob i)
  | Value.int _ => some Ty.int
  | Value.float _ => some Ty.float
  | Value.bool _ => some Ty.bool
  | Value.string _ => some Ty.string
  | Value.function _ b => (s.blocks[b]?).map (fun bl => bl.ty)
  | _ => some Ty.void

/-- `Type::as_value`: the default value of a type.  `BlobInstance` and
`Function` allocate fresh heap objects (an empty field vector, a block
created by `Block::from_type`), so the state is threaded. -/
def tyAsValue (t : Ty) (s : VM) : Value × VM :=
  match t with
  | Ty.void => (Value.nil, s)
  | Ty.blob i => (Value.blob i, s)
  | Ty.blobInstance i =>
    (Value.blobInstance i s.instances.length,
     { s with instances := s.instances ++ [[]] })
  | Ty.unknownType => (Value.unkown, s)
  | Ty.int => (Value.int 1, s)
  | Ty.float => (Value.float 1, s)
  | Ty.bool => (Value.bool true, s)
  | Ty.string => (Value.string (""), s)
  | Ty.function _ _ =>
    (Value.function [] s.blocks.length,
     { s with blocks := s.blocks ++ [blockFromType t] })

/-- First loop of the typecheck `Op::Constant` case: the suggested type
for each capture-descriptor entry (the declared type for `is_up` entries,
the current stack type at the declared slot otherwise). -/
def typesForUps (s : VM) : List (Nat × Bool × Ty) → Option (List Ty)
  | [] => some []
  | (slot, isUp, ty) :: rest =>
    if isUp then
      match typesForUps s rest with
      | some l => some (ty :: l)
      | none => none
    else
      match s.stack[slot]? with
      | none => none
      | some v =>
        match asType s v with
        | none => none
        | some t =>
          match typesForUps s rest with
          | some l => some (t :: l)
          | none => none

/-- Second loop of the typecheck `Op::Constant` case: refine `Unknown`
descriptor types from the suggestions, in place; a conflicting known type
stops the loop (later entries keep their old types, exactly as the Rust
early `return` out of `iter_mut` does) and reports the conflicting pair.
`none` models the `types[i]` indexing panic on a length mismatch, which
cannot happen for lists built by `typesForUps`. -/
def refineUps :
    List (Nat × Bool × Ty) → List Ty →
    Option (List (Nat × Bool × Ty) × Option (Ty × Ty))
  | [], _ => some ([], none)
  | (slot, isUp, ty) :: rest, sugg :: suggs =>
    if isUp then
      match refineUps rest suggs with
      | some (l, e) => some ((slot, isUp, ty) :: l, e)
      | none => none
    else if ty.is_unkown then
      match refineUps rest suggs with
      | some (l, e) => some ((slot, isUp, sugg) :: l, e)
      | none => none
    else if tyEq ty sugg then
      match refineUps rest suggs with
      | some (l, e) => some ((slot, isUp, ty) :: l, e)
      | none => none
    else
      some ((slot, isUp, ty) :: rest, some (ty, sugg))
  | _ :: _, [] => none

/-- `Op::Constant` during typecheck: push the literal; for a function
literal, additionally run capture-type inference against the live stack
and write the refined descriptor back into the (shared) block. -/
def checkConstant (s : VM) (op : Op) (v : Value) : CheckRes :=
  match v with
  | Value.function _ blockId =>
    match s.blocks[blockId]? with
    | none => CheckRes.abort
    | some b =>
      let s1 : VM := { s with stack := s.stack ++ [Value.function [] blockId] }
      match typesForUps s1 b.ups with
      | none => CheckRes.abort
      | some types =>
        match refineUps b.ups types with
        | none => CheckRes.abort
        | some (newUps, e) =>
          let s2 : VM :=
            { s1 with blocks := s1.blocks.set blockId { b with ups := newUps } }
          match e with
          | none => bumpOk s2
          | some (t1, t2) =>
            errC s2 (ErrorKind.typeError op [t1, t2])
              (some ("Failed to infer type."))
  | _ => bumpOk { s with stack := s.stack ++ [v] }

/-- `Op::Get` during typecheck: the result is the field type's default
value; on a non-instance the checker pushes `Nil` and then errors. -/
def checkGet (s : VM) (field : String) : CheckRes :=
  match popStack s.stack with
  | none => CheckRes.abort
  | some (inst, st) =>
    match inst with
    | Value.blobInstance ty _ =>
      match s.blobs[ty]? with
      | none => CheckRes.abort
      | some blob =>
        match lookupField field blob.name_to_field with
        | none => CheckRes.abort
        | some (_, fty) =>
          let r := tyAsValue fty { s with stack := st }
          bumpOk { r.2 with stack := r.2.stack ++ [r.1] }
    | _ =>
      errC { s with stack := st ++ [Value.nil] }
        (ErrorKind.runtimeTypeError (Op.get field) [inst]) none

/-- `Op::Set` during typecheck: the assigned value's type (via
`Type::from`) must equal the field's declared type. -/
def checkSet (s : VM) (field : String) : CheckRes :=
  match popStack s.stack with
  | none => CheckRes.abort
  | some (value, st1) =>
    match popStack st1 with
    | none => CheckRes.abort
    | some (inst, st2) =>
      match inst with
      | Value.blobInstance ty _ =>
        match s.blobs[ty]? with
        | none => CheckRes.abort
        | some blob =>
          match lookupField field blob.name_to_field with
          | none => CheckRes.abort
          | some (_, fty) =>
            match typeFromValue s value with
            | none => CheckRes.abort
            | some vt =>
              if tyEq fty vt then bumpOk { s with stack := st2 }
              else
                errC { s with stack := st2 }
                  (ErrorKind.runtimeTypeError (Op.set field) [inst]) none
      | _ =>
        errC { s with stack := st2 }
          (ErrorKind.runtimeTypeError (Op.set field) [inst]) none

/-- `Op::ReadUpvalue` during typecheck: push the default value of the
capture descriptor's declared type. -/
def checkReadUpvalue (s : VM) (slot : Nat) : CheckRes :=
  match s.frames.getLast? with
  | none => CheckRes.abort
  | some f =>
    match s.blocks[f.block]? with
    | none => CheckRes.abort
    | some b =>
      match b.ups[slot]? with
      | none => CheckRes.abort
      | some (_, _, ty) =>
        let r := tyAsValue ty s
        bumpOk { r.2 with stack := r.2.stack ++ [r.1] }

/-- `Op::AssignUpvalue` during typecheck. -/
def checkAssignUpvalue (s : VM) (op : Op) (slot : Nat) : CheckRes :=
  match s.frames.getLast? with
  | none => CheckRes.abort
  | some f =>
    match s.blocks[f.block]? with
    | none => CheckRes.abort
    | some b =>
      match b.ups[slot]? with
      | none => CheckRes.abort
      | some (_, _, var) =>
        match popStack s.stack with
        | none => CheckRes.abort
        | some (v, st) =>
          match asType s v with
          | none => CheckRes.abort
          | some up =>
            if tyEq var up then bumpOk { s with stack := st }
            else
              errC { s with stack := st } (ErrorKind.typeError op [var, up])
                (some ("Incorrect type for upvalue."))

/-- `Op::Return` during typecheck: the popped value's type must match the
block's declared return type; the loop then continues linearly. -/
def checkReturn (s : VM) : CheckRes :=
  match popStack s.stack with
  | none => CheckRes.abort
  | some (a, st) =>
    match s.frames.getLast? with
    | none => CheckRes.abort
    | some f =>
      match s.blocks[f.block]? with
      | none => CheckRes.abort
      | some b =>
        match b.ret with
        | none => CheckRes.abort
        | some rty =>
          match asType s a with
          | none => CheckRes.abort
          | some aTy =>
            if tyEq aTy rty then bumpOk { s with stack := st }
            else
              errC { s with stack := st }
                (ErrorKind.typeError Op.ret [aTy, rty])
                (some ("Not matching return type."))

/-- `Op::Define` during typecheck, mirroring the Rust `match` with its
guards: the first arm fires whenever `ty` is `Unknown` (its guard
`top_type != Unknown` is vacuously true because `PartialEq` never equates
`Unknown` with anything); otherwise a structural mismatch errors. -/
def checkDefine (s : VM) (op : Op) (ty : Ty) : CheckRes :=
  match s.stack.getLast? with
  | none => CheckRes.abort
  | some top =>
    match asType s top with
    | none => CheckRes.abort
    | some topTy =>
      match ty with
      | Ty.unknownType =>
        if tyEq topTy Ty.unknownType = false then bumpOk s
        else if tyEq Ty.unknownType topTy = false then
          errC s (ErrorKind.typeError op [Ty.unknownType, topTy])
            (some ("Tried to assign a type " ++ toString (repr Ty.unknownType) ++
              " to type " ++ toString (repr topTy) ++ "."))
        else bumpOk s
      | a =>
        if tyEq a topTy = false then
          errC s (ErrorKind.typeError op [a, topTy])
            (some ("Tried to assign a type " ++ toString (repr a) ++
              " to type " ++ toString (repr topTy) ++ "."))
        else bumpOk s

/-- The typecheck `Op::Call` blob-construction loop: pour each field's
default value into its slot (`values[slot] = ty.as_value()`); `none` is
the indexing panic for an out-of-range slot. -/
def fillFields :
    List (String × Nat × Ty) → List Value → VM → Option (List Value × VM)
  | [], vals, s => some (vals, s)
  | (_, slot, ty) :: rest, vals, s =>
    if slot < vals.length then
      let r := tyAsValue ty s
      fillFields rest (vals.set slot r.1) r.2
    else none

def mapAsType (s : VM) : List Value → Option (List Ty)
  | [] => some []
  | v :: rest =>
    match asType s v with
    | none => none
    | some t =>
      match mapAsType s rest with
      | some l => some (t :: l)
      | none => none

/-- `Op::Call` during typecheck. -/
def checkCall (s : VM) (op : Op) (numArgs : Nat) : CheckRes :=
  if s.stack.length < numArgs + 1 then CheckRes.abort
  else
    let newBase := s.stack.length - 1 - numArgs
    match s.stack[newBase]? with
    | none => CheckRes.abort
    | some callee =>
      match callee with
      | Value.blob blobId =>
        match s.blobs[blobId]? with
        | none => CheckRes.abort
        | some blob =>
          match fillFields blob.name_to_field
              (List.replicate blob.name_to_field.length Value.nil) s with
          | none => CheckRes.abort
          | some (vals, s1) =>
            bumpOk { s1 with
              stack := s1.stack.dropLast ++
                [Value.blobInstance blobId s1.instances.length],
              instances := s1.instances ++ [vals] }
      | Value.function _ blockId =>
        match s.blocks[blockId]? with
        | none => CheckRes.abort
        | some b =>
          match b.args with
          | none => CheckRes.abort
          | some args =>
            if args.length ≠ numArgs then
              errC s ErrorKind.invalidProgram
                (some ("Invalid number of arguments, got " ++
                  toString numArgs ++ " expected " ++
                  toString args.length ++ "."))
            else
              match mapAsType s (s.stack.drop (s.stack.length - args.length)) with
              | none => CheckRes.abort
              | some stackArgs =>
                if tyEqList args stackArgs = false then
                  errC s (ErrorKind.typeError op [])
                    (some ("Expected args of type " ++ toString (repr args) ++
                      " but got " ++ toString (repr stackArgs) ++ "."))
                else
                  match b.ret with
                  | none => CheckRes.abort
                  | some rty =>
                    let r := tyAsValue rty s
                    if newBase < r.2.stack.length then
                      bumpOk { r.2 with
                        stack := (r.2.stack.set newBase r.1).take (newBase + 1) }
                    else CheckRes.abort
      | Value.externFunction slot =>
        match s.extern_functions[slot]? with
        | none => CheckRes.abort
        | some f =>
          match f (s.stack.drop (newBase + 1)) false with
          | Except.ok v =>
            bumpOk { s with stack := s.stack.take newBase ++ [v] }
          | Except.error ek =>
            errC { s with stack := s.stack.take newBase ++ [Value.nil] } ek
              (some ("Wrong arguments to external function"))
      | _ =>
        match asType s callee with
        | none => CheckRes.abort
        | some cTy =>
          errC s (ErrorKind.typeError op [cTy])
            (some ("Tried to call non-function " ++ toString (repr callee)))

/-- `Op::JmpFalse` during typecheck: pops (with an `unwrap`) and requires
a `Bool`. -/
def checkJmpFalse (s : VM) (op : Op) : CheckRes :=
  match popStack s.stack with
  | none => CheckRes.abort
  | some (v, st) =>
    match v with
    | Value.bool _ => bumpOk { s with stack := st }
    | a =>
      match asType s a with
      | none => CheckRes.abort
      | some t => errC { s with stack := st } (ErrorKind.typeError op [t]) none

/-- `VM::check_op` — the typecheck dispatcher; opcodes without a special
case fall through to the runtime evaluator (and skip the shared ip bump,
since `eval_op` performs its own). -/
def checkOp (s : VM) : Op → CheckRes
  | Op.unreachable => bumpOk s
  | Op.jmp _ => bumpOk s
  | Op.yield => bumpOk s
  | Op.constant v => checkConstant s (Op.constant v) v
  | Op.get field => checkGet s field
  | Op.set field => checkSet s field
  | Op.popUpvalue =>
    match popStack s.stack with
    | none => CheckRes.abort
    | some (_, st) => bumpOk { s with stack := st }
  | Op.readUpvalue slot => checkReadUpvalue s slot
  | Op.assignUpvalue slot => checkAssignUpvalue s (Op.assignUpvalue slot) slot
  | Op.ret => checkReturn s
  | Op.print =>
    match popStack s.stack with
    | none => CheckRes.abort
    | some (_, st) => bumpOk { s with stack := st }
  | Op.define ty => checkDefine s (Op.define ty) ty
  | Op.call n => checkCall s (Op.call n) n
  | Op.jmpFalse t => checkJmpFalse s (Op.jmpFalse t)
  | op =>
    match evalOp s op with
    | EvalRes.ok _ s' => CheckRes.ok s'
    | EvalRes.err e s' => CheckRes.err e s'
    | EvalRes.abort => CheckRes.abort

/-- The per-step identity normalisation of the typecheck loop: replace the
stack top (if any) by its canonical representative. -/
def identTop (s : VM) : VM :=
  match popStack s.stack with
  | none => s
  | some (v, st) => { s with stack := st ++ [v.identity] }

/-- The body of `typecheck_block`'s loop, with explicit fuel.  Each
iteration advances ip by exactly one (the adequacy of the fuel given by
`typecheck_block` is proved separately), errors are accumulated and the
checker continues at `ip + 1`. -/
def typecheckLoop : Nat → VM → List Error → Option (List Error × VM)
  | fuel, s, acc =>
    match s.frames.getLast? with
    | none => none
    | some f =>
      match s.blocks[f.block]? with
      | none => none
      | some b =>
        if b.ops.length ≤ f.ip then some (acc, s)
        else
          match fuel with
          | 0 => none
          | fuel + 1 =>
            match b.ops[f.ip]? with
            | none => none
            | some op =>
              match checkOp s op with
              | CheckRes.ok s1 => typecheckLoop fuel (identTop s1) acc
              | CheckRes.err e s1 =>
                match s1.bumpIp with
                | some s2 => typecheckLoop fuel (identTop s2) (acc ++ [e])
                | none => none
              | CheckRes.abort => none

/-- Push the default values of the declared argument types (the seeding
loop of `typecheck_block`). -/
def pushArgs : List Ty → VM → VM
  | [], s => s
  | t :: rest, s =>
    let r := tyAsValue t s
    pushArgs rest { r.2 with stack := r.2.stack ++ [r.1] }

/-- `VM::typecheck_block`: reset stack and frames, seed the synthetic
stack with the block's own function value and argument defaults, then run
the loop. -/
def typecheck_block (s : VM) (blockId : Nat) : Option (List Error × VM) :=
  match s.blocks[blockId]? with
  | none => none
  | some b =>
    match b.args with
    | none => none
    | some args =>
      let s1 : VM := { s with stack := [Value.function [] blockId], frames := [] }
      let s2 := pushArgs args s1
      let s3 : VM :=
        { s2 with frames := [{ stack_offset := 0, block := blockId, ip := 0 }] }
      typecheckLoop (b.ops.length + 1) s3 []

/-- Run `typecheck_block` over the given block indices, keeping the error
lists per block. -/
def typecheckBlocksGo : List Nat → VM → Option (List (List Error) × VM)
  | [], s => some ([], s)
  | i :: rest, s =>
    match typecheck_block s i with
    | none => none
    | some (errs, s') =>
      match typecheckBlocksGo rest s' with
      | some (ls, s'') => some (errs :: ls, s'')
      | none => none

/-- `VM::typecheck` up to the final emptiness test: install the program
and collect each block's error list in order.  The flat accumulator of
the Rust loop is the flattening of these lists. -/
def typecheckPerBlock (s : VM) (p : Prog) : Option (List (List Error) × VM) :=
  let s0 : VM :=
    { s with blobs := p.blobs, extern_functions := p.functions,
             blocks := p.blocks }
  typecheckBlocksGo (List.range p.blocks.length) s0

/-- `VM::typecheck`: success iff no block produced an error. -/
def typecheck (s : VM) (p : Prog) : Option (Except (List Error) Unit × VM) :=
  match typecheckPerBlock s p with
  | none => none
  | some (ls, s') =>
    let errors := ls.flatten
    if errors.isEmpty then some (Except.ok (), s')
    else some (Except.error errors, s')

/-- `VM::init`: install the program, reset stack and frames, and push the
root function value and frame; `none` models the `prog.blocks[0]` panic
on an empty program. -/
def VM.init (s : VM) (p : Prog) : Option VM :=
  match p.blocks[0]? with
  | none => none
  | some _ =>
    some { s with blobs := p.blobs, extern_functions := p.functions,
                  blocks := p.blocks,
                  stack := [Value.function [] 0],
                  frames := [{ stack_offset := 0, block := 0, ip := 0 }] }

/-- `VM::op`: the opcode the active frame's ip points at. -/
def currentOp (s : VM) : Option Op :=
  match s.frames.getLast? with
  | none => none
  | some f =>
    match s.blocks[f.block]? with
    | none => none
    | some b => b.ops[f.ip]?

/-- One successful step of the `run` loop. -/
def Step (s s' : VM) : Prop :=
  ∃ op r, currentOp s = some op ∧ evalOp s op = EvalRes.ok r s'

/-- States reachable from `s0` by successful evaluation steps. -/
inductive ReachableFrom (s0 : VM) : VM → Prop
  | refl : ReachableFrom s0 s0
  | step {s s' : VM} : ReachableFrom s0 s → Step s s' → ReachableFrom s0 s'

/-- The upvalue-registry invariant: slots are registered at most once,
distinct slots own distinct cells, and every registered cell is open. -/
def RegInv (s : VM) : Prop :=
  (s.upvalues.map Prod.fst).Nodup ∧
  (s.upvalues.map Prod.snd).Nodup ∧
  ∀ p ∈ s.upvalues, ∃ c, s.cells[p.2]? = some c ∧ c.slot ≠ 0

/-- Well-formed capture descriptors: a captured enclosing-frame local
(`is_up = false`) never sits at local slot 0 — slot 0 holds the frame's
own function value, and the spec forbids upvalues over absolute slot 0. -/
def WFCaps (s : VM) : Prop :=
  ∀ b ∈ s.blocks, ∀ e ∈ b.ups, e.2.1 = false → 1 ≤ e.1

/-- The cell `cid` is in the closed state. -/
def cellClosed (s : VM) (cid : Nat) : Prop :=
  ∃ c, s.cells[cid]? = some c ∧ c.slot = 0

/-! ### Association-list and stack lemmas -/

theorem lookupNat_mem {k v : Nat} :
    ∀ {l : List (Nat × Nat)}, lookupNat k l = some v → (k, v) ∈ l
  | [], h => by simp [lookupNat] at h
  | (a, b) :: rest, h => by
    rw [lookupNat] at h
    split at h
    · next hak =>
      obtain rfl := hak
      obtain rfl := Option.some.inj h
      exact List.mem_cons_self _ _
    · exact List.mem_cons_of_mem _ (lookupNat_mem h)

theorem lookupNat_eq_none {k : Nat} :
    ∀ {l : List (Nat × Nat)}, lookupNat k l = none ↔ k ∉ l.map Prod.fst
  | [] => by simp [lookupNat]
  | (a, b) :: rest => by
    rw [lookupNat]
    split
    · next hak =>
      obtain rfl := hak
      simp
    · next hak =>
      rw [lookupNat_eq_none]
      simp only [List.map_cons, List.mem_cons]
      constructor
      · intro h hk
        rcases hk with hk | hk
        · exact hak hk.symm
        · exact h hk
      · intro h hk
        exact h (Or.inr hk)

theorem lookupNat_filter_self (k : Nat) (l : List (Nat × Nat)) :
    lookupNat k (l.filter (fun p => p.1 != k)) = none := by
  rw [lookupNat_eq_none]
  intro hk
  rcases List.mem_map.mp hk with ⟨p, hp, hpk⟩
  rcases List.mem_filter.mp hp with ⟨_, hne⟩
  simp only [bne_iff_ne, ne_eq] at hne
  exact hne hpk

theorem lookupNat_filter_ne {k slot : Nat} (h : k ≠ slot) :
    ∀ (l : List (Nat × Nat)),
      lookupNat k (l.filter (fun p => p.1 != slot)) = lookupNat k l
  | [] => rfl
  | (a, b) :: rest => by
    by_cases has : a = slot
    · subst has
      have hne : ¬((a, b).1 != a) = true := by simp
      rw [List.filter_cons, if_neg hne]
      have hak : ¬(a = k) := fun hh => h (hh ▸ rfl)
      rw [lookupNat, if_neg hak]
      exact lookupNat_filter_ne h rest
    · have hne : ((a, b).1 != slot) = true := by simpa using has
      rw [List.filter_cons, if_pos hne]
      by_cases hak : a = k
      · subst hak
        rw [lookupNat, if_pos rfl, lookupNat, if_pos rfl]
      · rw [lookupNat, if_neg hak, lookupNat, if_neg hak]
        exact lookupNat_filter_ne h rest

theorem lookupNat_append_some {k v : Nat} :
    ∀ {l : List (Nat × Nat)} (l' : List (Nat × Nat)),
      lookupNat k l = some v → lookupNat k (l ++ l') = some v
  | [], _, h => by simp [lookupNat] at h
  | (a, b) :: rest, l', h => by
    rw [lookupNat] at h
    rw [List.cons_append, lookupNat]
    split at h
    · next hak =>
      rw [if_pos hak]
      exact h
    · next hak =>
      rw [if_neg hak]
      exact lookupNat_append_some l' h

theorem lookupNat_append_none {k : Nat} :
    ∀ {l : List (Nat × Nat)} (l' : List (Nat × Nat)),
      lookupNat k l = none → lookupNat k (l ++ l') = lookupNat k l'
  | [], _, _ => rfl
  | (a, b) :: rest, l', h => by
    rw [lookupNat] at h
    rw [List.cons_append, lookupNat]
    split at h
    · exact absurd h (by simp)
    · next hak =>
      rw [if_neg hak]
      exact lookupNat_append_none l' h

theorem popStack_concat (st : List Value) (v : Value) :
    popStack (st ++ [v]) = some (v, st) := by
  simp [popStack]

theorem popStack_eq_some {l : List Value} {v : Value} {st : List Value}
    (h : popStack l = some (v, st)) : l = st ++ [v] := by
  unfold popStack at h
  split at h
  · next w hg =>
    simp only [Option.some.injEq, Prod.mk.injEq] at h
    obtain ⟨rfl, rfl⟩ := h
    have hne : l ≠ [] := by
      rintro rfl
      simp at hg
    have hgl := List.getLast?_eq_getLast l hne
    rw [hgl] at hg
    obtain rfl := Option.some.inj hg
    exact (List.dropLast_concat_getLast hne).symm
  · cases h

/-! ### Generic shape lemmas for the evaluator plumbing -/

theorem bumpIp_some {s0 : VM} {s' : VM} (h : s0.bumpIp = some s') :
    s'.upvalues = s0.upvalues ∧ s'.cells = s0.cells ∧ s'.blocks = s0.blocks ∧
    s'.stack = s0.stack ∧ s'.instances = s0.instances ∧ s'.blobs = s0.blobs ∧
    s'.extern_functions = s0.extern_functions := by
  unfold VM.bumpIp at h
  split at h
  · cases h
  · next f hg =>
    obtain rfl := Option.some.inj h
    exact ⟨rfl, rfl, rfl, rfl, rfl, rfl, rfl⟩

theorem bumpIp_frames {s0 s' : VM} (h : s0.bumpIp = some s') :
    ∃ f, s0.frames.getLast? = some f ∧
      s'.frames = s0.frames.dropLast ++ [{ f with ip := f.ip + 1 }] := by
  unfold VM.bumpIp at h
  split at h
  · cases h
  · next f hg =>
    obtain rfl := Option.some.inj h
    exact ⟨f, hg, rfl⟩

theorem okBump_ok {s0 : VM} {r : OpResult} {s' : VM}
    (h : okBump s0 = EvalRes.ok r s') :
    r = OpResult.cont ∧ s0.bumpIp = some s' := by
  unfold okBump at h
  split at h
  · next s1 hb =>
    injection h with h1 h2
    subst h1
    subst h2
    exact ⟨rfl, hb⟩
  · cases h

theorem okBump_fields {s0 : VM} {r : OpResult} {s' : VM}
    (h : okBump s0 = EvalRes.ok r s') :
    s'.upvalues = s0.upvalues ∧ s'.cells = s0.cells ∧ s'.blocks = s0.blocks ∧
    s'.stack = s0.stack ∧ s'.instances = s0.instances ∧ s'.blobs = s0.blobs ∧
    s'.extern_functions = s0.extern_functions :=
  bumpIp_some (okBump_ok h).2

theorem errE_not_ok {s0 : VM} {k : ErrorKind} {m : Option String}
    {r : OpResult} {s' : VM} : errE s0 k m ≠ EvalRes.ok r s' := by
  unfold errE
  split <;> simp

theorem errE_err {s0 : VM} {k : ErrorKind} {m : Option String}
    {e : Error} {s' : VM} (h : errE s0 k m = EvalRes.err e s') : s' = s0 := by
  unfold errE at h
  split at h
  · next er hg =>
    injection h with h1 h2
    exact h2.symm
  · cases h

theorem bumpOk_ok {s0 : VM} {s' : VM} (h : bumpOk s0 = CheckRes.ok s') :
    s0.bumpIp = some s' := by
  unfold bumpOk at h
  split at h
  · next s1 hb =>
    injection h with h1
    subst h1
    exact hb
  · cases h

theorem errC_err {s0 : VM} {k : ErrorKind} {m : Option String}
    {e : Error} {s' : VM} (h : errC s0 k m = CheckRes.err e s') : s' = s0 := by
  unfold errC at h
  split at h
  · next er hg =>
    injection h with h1 h2
    exact h2.symm
  · cases h

theorem errC_not_ok {s0 : VM} {k : ErrorKind} {m : Option String}
    {s' : VM} : errC s0 k m ≠ CheckRes.ok s' := by
  unfold errC
  split <;> simp

/-- `RegInv` only depends on the registry and the cell heap. -/
theorem regInv_of_eq {s s' : VM} (hu : s'.upvalues = s.upvalues)
    (hc : s'.cells = s.cells) (h : RegInv s) : RegInv s' := by
  unfold RegInv at h ⊢
  rw [hu, hc]
  exact h

theorem cellClosed_of_eq {s s' : VM} (hc : s'.cells = s.cells)
    {cid : Nat} (h : cellClosed s cid) : cellClosed s' cid := by
  unfold cellClosed at h ⊢
  rw [hc]
  exact h

/-! ### `drop_upvalue` -/

theorem drop_upvalue_some {s : VM} {slot : Nat} {v : Value} {s' : VM}
    (h : s.drop_upvalue slot v = some s') :
    ∃ cid c, lookupNat slot s.upvalues = some cid ∧ s.cells[cid]? = some c ∧
      s' = { s with cells := s.cells.set cid { slot := 0, value := v },
                    upvalues := s.upvalues.filter (fun p => p.1 != slot) } := by
  unfold VM.drop_upvalue at h
  split at h
  · next cid hl =>
    split at h
    · next c hc =>
      exact ⟨cid, c, hl, hc, (Option.some.inj h).symm⟩
    · cases h
  · cases h

theorem drop_upvalue_none {s : VM} {slot : Nat} {v : Value}
    (hl : lookupNat slot s.upvalues = none) :
    s.drop_upvalue slot v = none := by
  unfold VM.drop_upvalue
  split
  · next cid hl' =>
    rw [hl] at hl'
    cases hl'
  · rfl

theorem drop_upvalue_regInv {s : VM} {slot : Nat} {v : Value} {s' : VM}
    (hinv : RegInv s) (h : s.drop_upvalue slot v = some s') : RegInv s' := by
  obtain ⟨cid, c, hl, hc, rfl⟩ := drop_upvalue_some h
  obtain ⟨h1, h2, h3⟩ := hinv
  refine ⟨?_, ?_, ?_⟩
  · exact List.Nodup.sublist (List.Sublist.map _ (List.filter_sublist _)) h1
  · exact List.Nodup.sublist (List.Sublist.map _ (List.filter_sublist _)) h2
  · intro p hp
    have hpmem : p ∈ s.upvalues := List.mem_of_mem_filter hp
    have hpne : p.1 ≠ slot := by
      have := (List.mem_filter.mp hp).2
      simpa using this
    obtain ⟨c', hc', hopen⟩ := h3 p hpmem
    have hcid : p.2 ≠ cid := by
      intro heq
      have hsc : (slot, cid) ∈ s.upvalues := lookupNat_mem hl
      have hpq := List.inj_on_of_nodup_map h2 hpmem hsc heq
      exact hpne (congrArg Prod.fst hpq)
    refine ⟨c', ?_, hopen⟩
    show (s.cells.set cid { slot := 0, value := v })[p.2]? = some c'
    rw [List.getElem?_set_ne (fun hh => hcid hh.symm)]
    exact hc'

theorem drop_upvalue_closed_mono {s : VM} {slot : Nat} {v : Value} {s' : VM}
    (h : s.drop_upvalue slot v = some s') {cid0 : Nat}
    (hcl : cellClosed s cid0) : cellClosed s' cid0 := by
  obtain ⟨cid, c, hl, hc, rfl⟩ := drop_upvalue_some h
  obtain ⟨c0, hc0, hslot0⟩ := hcl
  by_cases heq : cid = cid0
  · subst heq
    refine ⟨{ slot := 0, value := v }, ?_, rfl⟩
    show (s.cells.set cid _)[cid]? = _
    rw [List.getElem?_set_self (List.getElem?_eq_some_iff.mp hc0).1]
  · refine ⟨c0, ?_, hslot0⟩
    show (s.cells.set cid _)[cid0]? = some c0
    rw [List.getElem?_set_ne heq]
    exact hc0

theorem drop_upvalue_fields {s : VM} {slot : Nat} {v : Value} {s' : VM}
    (h : s.drop_upvalue slot v = some s') :
    s'.stack = s.stack ∧ s'.frames = s.frames ∧ s'.blocks = s.blocks ∧
    s'.blobs = s.blobs ∧ s'.instances = s.instances ∧
    s'.extern_functions = s.extern_functions ∧
    s'.cells.length = s.cells.length := by
  obtain ⟨cid, c, hl, hc, rfl⟩ := drop_upvalue_some h
  exact ⟨rfl, rfl, rfl, rfl, rfl, rfl, by simp⟩

/-! ### `find_upvalue` -/

theorem find_upvalue_cases (s : VM) (slot : Nat) :
    (∃ cid, lookupNat slot s.upvalues = some cid ∧
      s.find_upvalue slot = (cid, s)) ∨
    (lookupNat slot s.upvalues = none ∧
      s.find_upvalue slot = (s.cells.length,
        { s with cells := s.cells ++ [UpValue.new slot],
                 upvalues := s.upvalues ++ [(slot, s.cells.length)] })) := by
  unfold VM.find_upvalue
  split
  · next cid hl => exact Or.inl ⟨cid, hl, rfl⟩
  · next hl => exact Or.inr ⟨hl, rfl⟩

theorem find_upvalue_regInv {s : VM} {slot : Nat}
    (hinv : RegInv s) (hslot : slot ≠ 0) : RegInv (s.find_upvalue slot).2 := by
  rcases find_upvalue_cases s slot with ⟨cid, hl, heq⟩ | ⟨hl, heq⟩
  · rw [heq]
    exact hinv
  · rw [heq]
    obtain ⟨h1, h2, h3⟩ := hinv
    refine ⟨?_, ?_, ?_⟩
    · show ((s.upvalues ++ [(slot, s.cells.length)]).map Prod.fst).Nodup
      rw [List.map_append, List.nodup_append]
      refine ⟨h1, List.nodup_singleton _, ?_⟩
      intro a ha hb
      simp only [List.map_cons, List.map_nil, List.mem_singleton] at hb
      subst hb
      exact (lookupNat_eq_none.mp hl) ha
    · show ((s.upvalues ++ [(slot, s.cells.length)]).map Prod.snd).Nodup
      rw [List.map_append, List.nodup_append]
      refine ⟨h2, List.nodup_singleton _, ?_⟩
      intro a ha hb
      simp only [List.map_cons, List.map_nil, List.mem_singleton] at hb
      subst hb
      rcases List.mem_map.mp ha with ⟨p, hp, hpc⟩
      obtain ⟨c, hc, _⟩ := h3 p hp
      have hlt := (List.getElem?_eq_some_iff.mp hc).1
      rw [hpc] at hlt
      exact absurd hlt (by omega)
    · intro p hp
      rcases List.mem_append.mp hp with hp | hp
      · obtain ⟨c, hc, hopen⟩ := h3 p hp
        refine ⟨c, ?_, hopen⟩
        show (s.cells ++ [UpValue.new slot])[p.2]? = some c
        rw [List.getElem?_append_left (List.getElem?_eq_some_iff.mp hc).1]
        exact hc
      · simp only [List.mem_singleton] at hp
        subst hp
        refine ⟨UpValue.new slot, ?_, ?_⟩
        · show (s.cells ++ [UpValue.new slot])[s.cells.length]? = _
          rw [List.getElem?_append_right (Nat.le_refl _)]
          simp
        · simpa [UpValue.new] using hslot

theorem find_upvalue_fields (s : VM) (slot : Nat) :
    (s.find_upvalue slot).2.stack = s.stack ∧
    (s.find_upvalue slot).2.frames = s.frames ∧
    (s.find_upvalue slot).2.blocks = s.blocks ∧
    (s.find_upvalue slot).2.blobs = s.blobs ∧
    (s.find_upvalue slot).2.instances = s.instances ∧
    (s.find_upvalue slot).2.extern_functions = s.extern_functions := by
  rcases find_upvalue_cases s slot with ⟨cid, _, heq⟩ | ⟨_, heq⟩ <;>
    rw [heq] <;> exact ⟨rfl, rfl, rfl, rfl, rfl, rfl⟩

theorem find_upvalue_cells_mono (s : VM) (slot : Nat) {cid : Nat}
    {c : UpValue} (hc : s.cells[cid]? = some c) :
    (s.find_upvalue slot).2.cells[cid]? = some c := by
  rcases find_upvalue_cases s slot with ⟨cid', _, heq⟩ | ⟨_, heq⟩ <;> rw [heq]
  · exact hc
  · show (s.cells ++ [UpValue.new slot])[cid]? = some c
    rw [List.getElem?_append_left (List.getElem?_eq_some_iff.mp hc).1]
    exact hc

theorem find_upvalue_closed_mono (s : VM) (slot : Nat) {cid : Nat}
    (hcl : cellClosed s cid) : cellClosed (s.find_upvalue slot).2 cid := by
  obtain ⟨c, hc, hs⟩ := hcl
  exact ⟨c, find_upvalue_cells_mono s slot hc, hs⟩

/-! ### Closure materialization and the return sweep preserve the registry
invariant -/

theorem setIp_some {s0 : VM} {t : Nat} {s' : VM} (h : s0.setIp t = some s') :
    s'.upvalues = s0.upvalues ∧ s'.cells = s0.cells ∧ s'.blocks = s0.blocks ∧
    s'.stack = s0.stack ∧ s'.instances = s0.instances ∧ s'.blobs = s0.blobs ∧
    s'.extern_functions = s0.extern_functions := by
  unfold VM.setIp at h
  split at h
  · cases h
  · next f hg =>
    obtain rfl := Option.some.inj h
    exact ⟨rfl, rfl, rfl, rfl, rfl, rfl, rfl⟩

/-- Preservation triple carried through most opcode cases. -/
def PreserveTo (s s' : VM) : Prop :=
  RegInv s' ∧ s'.blocks = s.blocks ∧
  ∀ cid, cellClosed s cid → cellClosed s' cid

theorem preserve_of_eq {s s' : VM} (hu : s'.upvalues = s.upvalues)
    (hc : s'.cells = s.cells) (hb : s'.blocks = s.blocks)
    (hinv : RegInv s) : PreserveTo s s' :=
  ⟨regInv_of_eq hu hc hinv, hb, fun _ => cellClosed_of_eq hc⟩

theorem preserve_of_okBump {s s0 : VM} {r : OpResult} {s' : VM}
    (h : okBump s0 = EvalRes.ok r s')
    (hu : s0.upvalues = s.upvalues) (hc : s0.cells = s.cells)
    (hb : s0.blocks = s.blocks) (hinv : RegInv s) : PreserveTo s s' := by
  obtain ⟨hu', hc', hb', _⟩ := okBump_fields h
  exact preserve_of_eq (hu'.trans hu) (hc'.trans hc) (hb'.trans hb) hinv

theorem preserve_trans {s s1 s' : VM} (h1 : PreserveTo s s1)
    (h2 : PreserveTo s1 s') : PreserveTo s s' :=
  ⟨h2.1, h2.2.1.trans h1.2.1, fun cid hc => h2.2.2 cid (h1.2.2 cid hc)⟩

/-- `List.set` with an entry whose open/closed flag is unchanged keeps the
registry invariant. -/
theorem regInv_set_preserve_slot {s : VM} {cid : Nat} {c c' : UpValue}
    (hinv : RegInv s) (hc : s.cells[cid]? = some c) (hs : c'.slot = c.slot) :
    RegInv { s with cells := s.cells.set cid c' } := by
  obtain ⟨h1, h2, h3⟩ := hinv
  refine ⟨h1, h2, ?_⟩
  intro p hp
  obtain ⟨cp, hcp, hopen⟩ := h3 p hp
  by_cases heq : p.2 = cid
  · subst heq
    obtain rfl := Option.some.inj (hcp.symm.trans hc)
    refine ⟨c', ?_, ?_⟩
    · show (s.cells.set p.2 c')[p.2]? = some c'
      rw [List.getElem?_set_self (List.getElem?_eq_some_iff.mp hcp).1]
    · rw [hs]
      exact hopen
  · refine ⟨cp, ?_, hopen⟩
    show (s.cells.set cid c')[p.2]? = some cp
    rw [List.getElem?_set_ne (fun hh => heq hh.symm)]
    exact hcp

theorem closed_mono_set_preserve_slot {s : VM} {cid : Nat} {c c' : UpValue}
    (hc : s.cells[cid]? = some c) (hs : c'.slot = c.slot) {cid0 : Nat}
    (hcl : cellClosed s cid0) :
    cellClosed { s with cells := s.cells.set cid c' } cid0 := by
  obtain ⟨c0, hc0, hs0⟩ := hcl
  by_cases heq : cid = cid0
  · subst heq
    obtain rfl := Option.some.inj (hc.symm.trans hc0)
    refine ⟨c', ?_, ?_⟩
    · show (s.cells.set cid c')[cid]? = some c'
      rw [List.getElem?_set_self (List.getElem?_eq_some_iff.mp hc).1]
    · rw [hs]
      exact hs0
  · refine ⟨c0, ?_, hs0⟩
    show (s.cells.set cid c')[cid0]? = some c0
    rw [List.getElem?_set_ne heq]
    exact hc0

theorem materializeUps_some {offset : Nat} :
    ∀ {ups : List (Nat × Bool × Ty)} {s : VM} {l : List Nat} {s' : VM},
      materializeUps offset ups s = some (l, s') →
      ((RegInv s → (∀ e ∈ ups, e.2.1 = false → 1 ≤ e.1) → RegInv s') ∧
       s'.stack = s.stack ∧ s'.frames = s.frames ∧ s'.blocks = s.blocks ∧
       s'.blobs = s.blobs ∧ s'.instances = s.instances ∧
       s'.extern_functions = s.extern_functions ∧
       (∀ cid, cellClosed s cid → cellClosed s' cid))
  | [], s, l, s', h => by
    simp only [materializeUps, Option.some.injEq, Prod.mk.injEq] at h
    obtain ⟨rfl, rfl⟩ := h
    exact ⟨fun hi _ => hi, rfl, rfl, rfl, rfl, rfl, rfl, fun _ hc => hc⟩
  | (slot, isUp, ty) :: rest, s, l, s', h => by
    rw [materializeUps] at h
    split at h
    · -- is_up entry: clone the current closure's cell, state unchanged
      split at h
      · next localUps blockId hstack =>
        split at h
        · next cid hcid =>
          split at h
          · next l0 s0 hrec =>
            simp only [Option.some.injEq, Prod.mk.injEq] at h
            obtain ⟨rfl, rfl⟩ := h
            have hrest := materializeUps_some hrec
            refine ⟨fun hinv hcaps => hrest.1 hinv ?_, hrest.2⟩
            intro e he hfalse
            exact hcaps e (List.mem_cons_of_mem _ he) hfalse
          · cases h
        · cases h
      · cases h
    · -- captured local: look up or create the shared open cell
      next hup =>
      split at h
      · next l0 s0 hrec =>
        simp only [Option.some.injEq, Prod.mk.injEq] at h
        obtain ⟨rfl, rfl⟩ := h
        have hrest := materializeUps_some hrec
        obtain ⟨hff1, hff2, hff3, hff4, hff5, hff6⟩ :=
          find_upvalue_fields s (offset + slot)
        refine ⟨?_, ?_, ?_, ?_, ?_, ?_, ?_, ?_⟩
        · intro hinv hcaps
          have hslot1 : 1 ≤ slot := by
            have hb : isUp = false := by
              simp only [Bool.not_eq_true] at hup
              exact hup
            exact hcaps (slot, isUp, ty) (List.mem_cons_self _ _) hb
          have hfind : RegInv (s.find_upvalue (offset + slot)).2 :=
            find_upvalue_regInv hinv (by omega)
          refine hrest.1 hfind ?_
          intro e he hfalse
          exact hcaps e (List.mem_cons_of_mem _ he) hfalse
        · exact hrest.2.1.trans hff1
        · exact hrest.2.2.1.trans hff2
        · exact hrest.2.2.2.1.trans hff3
        · exact hrest.2.2.2.2.1.trans hff4
        · exact hrest.2.2.2.2.2.1.trans hff5
        · exact hrest.2.2.2.2.2.2.1.trans hff6
        · intro cid hc
          exact hrest.2.2.2.2.2.2.2 cid
            (find_upvalue_closed_mono s (offset + slot) hc)
      · cases h

theorem sweepClose_regInv :
    ∀ {slots : List Nat} {s s' : VM}, sweepClose slots s = some s' →
      RegInv s →
      (RegInv s' ∧ s'.stack = s.stack ∧ s'.frames = s.frames ∧
       s'.blocks = s.blocks ∧ s'.blobs = s.blobs ∧
       s'.instances = s.instances ∧ s'.extern_functions = s.extern_functions ∧
       (∀ cid, cellClosed s cid → cellClosed s' cid))
  | [], s, s', h, hinv => by
    obtain rfl := Option.some.inj h
    exact ⟨hinv, rfl, rfl, rfl, rfl, rfl, rfl, fun _ hc => hc⟩
  | slot :: rest, s, s', h, hinv => by
    rw [sweepClose] at h
    split at h
    · split at h
      · next v hv =>
        split at h
        · next s1 hdrop =>
          have h1 := drop_upvalue_regInv hinv hdrop
          have hfields := drop_upvalue_fields hdrop
          have hrest := sweepClose_regInv h h1
          refine ⟨hrest.1, hrest.2.1.trans hfields.1,
            hrest.2.2.1.trans hfields.2.1, hrest.2.2.2.1.trans hfields.2.2.1,
            hrest.2.2.2.2.1.trans hfields.2.2.2.1,
            hrest.2.2.2.2.2.1.trans hfields.2.2.2.2.1,
            hrest.2.2.2.2.2.2.1.trans hfields.2.2.2.2.2.1, ?_⟩
          intro cid hc
          exact hrest.2.2.2.2.2.2.2 cid (drop_upvalue_closed_mono hdrop hc)
        · cases h
      · cases h
    · exact sweepClose_regInv h hinv

theorem abort_ne_ok {r : OpResult} {s' : VM} :
    EvalRes.abort ≠ EvalRes.ok r s' :=
  fun h => EvalRes.noConfusion h

/-- Running one opcode at runtime preserves the registry invariant, never
touches the block heap, and never reopens a closed cell. -/
theorem evalOp_preserves {s : VM} {op : Op} {r : OpResult} {s' : VM}
    (hinv : RegInv s) (hwf : WFCaps s) (h : evalOp s op = EvalRes.ok r s') :
    PreserveTo s s' := by
  cases op
  case popUpvalue =>
    simp only [evalOp] at h
    split at h
    · cases h
    · next v st hpop =>
      split at h
      · next s1 hdrop =>
        have hinv0 : RegInv { s with stack := st } := regInv_of_eq rfl rfl hinv
        have hinv1 := drop_upvalue_regInv hinv0 hdrop
        have hf := drop_upvalue_fields hdrop
        have hp1 : PreserveTo s s1 :=
          ⟨hinv1, hf.2.2.1, fun cid hc =>
            drop_upvalue_closed_mono hdrop (cellClosed_of_eq rfl hc)⟩
        exact preserve_trans hp1 (preserve_of_okBump h rfl rfl rfl hinv1)
      · cases h
  case constant v =>
    cases v
    case function ups0 blockId =>
      simp only [evalOp, evalConstant] at h
      split at h
      · cases h
      · next f hf =>
        split at h
        · cases h
        · next b hb =>
          split at h
          · next upsl s1 hm =>
            have hmm := materializeUps_some hm
            have hinv1 : RegInv s1 := hmm.1 hinv (by
              intro e he hfalse
              exact hwf b (List.getElem?_mem hb) e he hfalse)
            have hp1 : PreserveTo s s1 :=
              ⟨hinv1, hmm.2.2.2.1, hmm.2.2.2.2.2.2.2⟩
            exact preserve_trans hp1 (preserve_of_okBump h rfl rfl rfl hinv1)
          · cases h
    all_goals (
      simp only [evalOp, evalConstant] at h
      split at h
      · cases h
      · exact preserve_of_okBump h rfl rfl rfl hinv)
  case assignUpvalue slot =>
    simp only [evalOp] at h
    split at h
    · cases h
    · next f hf =>
      split at h
      · cases h
      · next v st hpop =>
        split at h
        · next ups blockId hoff =>
          split at h
          · cases h
          · next cid hcid =>
            split at h
            · cases h
            · next c hc =>
              split at h
              · -- closed cell: update the frozen value in place
                have hreg2 : RegInv { s with
                    stack := st,
                    cells := s.cells.set cid ({ slot := c.slot, value := v }) } :=
                  regInv_of_eq rfl rfl (regInv_set_preserve_slot hinv hc rfl)
                have hmono : ∀ cid0, cellClosed s cid0 →
                    cellClosed { s with
                      cells := s.cells.set cid
                        ({ slot := c.slot, value := v }) } cid0 :=
                  fun cid0 hc0 => closed_mono_set_preserve_slot hc
                    (show ({ slot := c.slot, value := v } : UpValue).slot = c.slot
                      from rfl) hc0
                have hp1 : PreserveTo s { s with
                    stack := st,
                    cells := s.cells.set cid ({ slot := c.slot, value := v }) } :=
                  ⟨hreg2, rfl, fun cid0 hc0 => cellClosed_of_eq rfl
                    (hmono cid0 hc0)⟩
                exact preserve_trans hp1
                  (preserve_of_okBump h rfl rfl rfl hreg2)
              · split at h
                · exact preserve_of_okBump h rfl rfl rfl hinv
                · cases h
        · cases h
  case jmp target =>
    simp only [evalOp] at h
    split at h
    · next s1 hset =>
      injection h with h1 h2
      subst h1
      subst h2
      obtain ⟨hu, hc, hb, _⟩ := setIp_some hset
      exact preserve_of_eq hu hc hb hinv
    · cases h
  case jmpFalse target =>
    simp only [evalOp] at h
    split at h
    · split at h
      · next s1 hset =>
        injection h with h1 h2
        subst h1
        subst h2
        obtain ⟨hu, hc, hb, _⟩ := setIp_some hset
        exact preserve_of_eq hu hc hb hinv
      · cases h
    · exact preserve_of_okBump h rfl rfl rfl hinv
    · exact preserve_of_okBump h rfl rfl rfl hinv
  case yield =>
    simp only [evalOp] at h
    split at h
    · next s1 hb =>
      injection h with h1 h2
      subst h1
      subst h2
      obtain ⟨hu, hc, hbk, _⟩ := bumpIp_some hb
      exact preserve_of_eq hu hc hbk hinv
    · cases h
  case call n =>
    simp only [evalOp, evalCall] at h
    repeat' split at h
    all_goals first
      | exact absurd h abort_ne_ok
      | exact absurd h errE_not_ok
      | exact preserve_of_okBump h rfl rfl rfl hinv
      | (injection h with h1 h2; subst h1; subst h2;
         exact preserve_of_eq rfl rfl rfl hinv)
  case ret =>
    simp only [evalOp, evalReturn] at h
    split at h
    · cases h
    · next last hlast =>
      split at h
      · injection h with h1 h2
        subst h1
        subst h2
        exact preserve_of_eq rfl rfl rfl hinv
      · split at h
        · cases h
        · next r0 st hpop =>
          split at h
          · split at h
            · cases h
            · next s3 hsweep =>
              have hsw := sweepClose_regInv hsweep (regInv_of_eq rfl rfl hinv)
              have htake : PreserveTo s3 s' :=
                preserve_of_okBump h rfl rfl rfl hsw.1
              exact preserve_trans
                ⟨hsw.1, hsw.2.2.2.1, fun cid hc =>
                  hsw.2.2.2.2.2.2.2 cid (cellClosed_of_eq rfl hc)⟩ htake
          · cases h
  all_goals (
    simp only [evalOp, evalGet, evalSet, evalNeg, evalAdd, evalSub, evalMul,
      evalDiv, evalEqual, evalLess, evalGreater, evalAnd, evalOr, evalNot] at h
    repeat' split at h
    all_goals first
      | exact absurd h abort_ne_ok
      | exact absurd h errE_not_ok
      | exact preserve_of_okBump h rfl rfl rfl hinv)

/-- Invariants hold in every reachable state. -/
theorem reachable_inv {s0 s : VM} (h0 : RegInv s0) (hw : WFCaps s0)
    (h : ReachableFrom s0 s) : RegInv s ∧ WFCaps s := by
  induction h with
  | refl => exact ⟨h0, hw⟩
  | step hr hstep ih =>
    obtain ⟨op, r, hop, heval⟩ := hstep
    have hp := evalOp_preserves ih.1 ih.2 heval
    refine ⟨hp.1, ?_⟩
    intro b hb
    rw [hp.2.1] at hb
    exact ih.2 b hb

theorem regInv_of_empty {s : VM} (h : s.upvalues = []) : RegInv s := by
  refine ⟨?_, ?_, ?_⟩
  · rw [h]
    exact List.nodup_nil
  · rw [h]
    exact List.nodup_nil
  · intro p hp
    rw [h] at hp
    cases hp

/-- The exact effect of `drop_upvalue` on a registered slot. -/
theorem drop_upvalue_eq {s : VM} {slot : Nat} {v : Value} {cid : Nat}
    {c : UpValue} (hl : lookupNat slot s.upvalues = some cid)
    (hc : s.cells[cid]? = some c) :
    s.drop_upvalue slot v =
      some { s with cells := s.cells.set cid ({ slot := 0, value := v }),
                    upvalues := s.upvalues.filter (fun p => p.1 != slot) } := by
  unfold VM.drop_upvalue
  split
  · next cid' hl' =>
    rw [hl] at hl'
    obtain rfl := Option.some.inj hl'
    split
    · next c' hc' =>
      rfl
    · next hc' =>
      rw [hc] at hc'
      cases hc'
  · next hl' =>
    rw [hl] at hl'
    cases hl'

/-- Full description of the return sweep over a duplicate-free slot list:
the sweep succeeds, leaves stack and frames alone, preserves the registry
invariant; every slot of the list with a registered open upvalue has that
cell closed with the slot's current stack value and its registry entry
removed; all other cells and registry entries are untouched. -/
theorem sweepClose_spec :
    ∀ {slots : List Nat} {s : VM}, slots.Nodup → RegInv s →
      (∀ slot ∈ slots, slot < s.stack.length) →
      ∃ s', sweepClose slots s = some s' ∧
        s'.stack = s.stack ∧ s'.frames = s.frames ∧
        RegInv s' ∧
        (∀ slot ∈ slots, ∀ cid, lookupNat slot s.upvalues = some cid →
          s'.cells[cid]? =
            some { slot := 0, value := s.stack.getD slot Value.nil } ∧
          lookupNat slot s'.upvalues = none) ∧
        (∀ cid, (∀ slot ∈ slots, lookupNat slot s.upvalues ≠ some cid) →
          s'.cells[cid]? = s.cells[cid]?) ∧
        (∀ slot, slot ∉ slots →
          lookupNat slot s'.upvalues = lookupNat slot s.upvalues)
  | [], s, _, hinv, _ => by
    refine ⟨s, rfl, rfl, rfl, hinv, ?_, ?_, ?_⟩
    · intro slot hs
      cases hs
    · intro cid _
      rfl
    · intro slot _
      rfl
  | slot :: rest, s, hnodup, hinv, hbound => by
    have hslotrest : slot ∉ rest := (List.nodup_cons.mp hnodup).1
    have hrestnodup : rest.Nodup := (List.nodup_cons.mp hnodup).2
    cases hl : lookupNat slot s.upvalues with
    | none =>
      have hcond : ¬((lookupNat slot s.upvalues).isSome = true) := by
        rw [hl]
        simp
      obtain ⟨s2, heq, hstk, hfrm, hreg, hclose, huntouched, hout⟩ :=
        sweepClose_spec hrestnodup hinv
          (fun sl hsl => hbound sl (List.mem_cons_of_mem _ hsl))
      refine ⟨s2, ?_, hstk, hfrm, hreg, ?_, ?_, ?_⟩
      · rw [sweepClose, if_neg hcond]
        exact heq
      · intro sl hsl cid hcid
        rcases List.mem_cons.mp hsl with rfl | hsl
        · rw [hl] at hcid
          cases hcid
        · exact hclose sl hsl cid hcid
      · intro cid hcid
        exact huntouched cid (fun sl hsl =>
          hcid sl (List.mem_cons_of_mem _ hsl))
      · intro sl hsl
        exact hout sl (fun hmem => hsl (List.mem_cons_of_mem _ hmem))
    | some cid0 =>
      have hcond : (lookupNat slot s.upvalues).isSome = true := by
        rw [hl]
        rfl
      have hmem0 : (slot, cid0) ∈ s.upvalues := lookupNat_mem hl
      obtain ⟨c0, hc0, hopen0⟩ := hinv.2.2 _ hmem0
      have hvlt : slot < s.stack.length := hbound slot (List.mem_cons_self _ _)
      obtain ⟨v, hv⟩ : ∃ v, s.stack[slot]? = some v :=
        ⟨s.stack[slot], List.getElem?_eq_getElem hvlt⟩
      have hdrop := drop_upvalue_eq (v := v) hl hc0
      set s1 : VM :=
        { s with cells := s.cells.set cid0 ({ slot := 0, value := v }),
                 upvalues := s.upvalues.filter (fun p => p.1 != slot) } with hs1
      have hinv1 : RegInv s1 := drop_upvalue_regInv hinv hdrop
      have hbound1 : ∀ sl ∈ rest, sl < s1.stack.length := by
        intro sl hsl
        exact hbound sl (List.mem_cons_of_mem _ hsl)
      obtain ⟨s2, heq, hstk, hfrm, hreg, hclose, huntouched, hout⟩ :=
        sweepClose_spec hrestnodup hinv1 hbound1
      have hlookup1 : ∀ sl, sl ≠ slot →
          lookupNat sl s1.upvalues = lookupNat sl s.upvalues := by
        intro sl hne
        exact lookupNat_filter_ne hne s.upvalues
      have hcid0_not_rest : ∀ sl ∈ rest,
          lookupNat sl s1.upvalues ≠ some cid0 := by
        intro sl hsl hcontra
        have hne : sl ≠ slot := fun hh => hslotrest (hh ▸ hsl)
        rw [hlookup1 sl hne] at hcontra
        have hmem' : (sl, cid0) ∈ s.upvalues := lookupNat_mem hcontra
        have := List.inj_on_of_nodup_map hinv.2.1 hmem' hmem0 rfl
        exact hne (congrArg Prod.fst this)
      refine ⟨s2, ?_, hstk, hfrm, hreg, ?_, ?_, ?_⟩
      · rw [sweepClose, if_pos hcond]
        -- reduce the two scrutinees to their known constructors
        split
        · next v' hv' =>
          rw [hv] at hv'
          obtain rfl := Option.some.inj hv'
          split
          · next s1' hdrop' =>
            rw [hdrop] at hdrop'
            obtain rfl := Option.some.inj hdrop'
            exact heq
          · next hdrop' =>
            rw [hdrop] at hdrop'
            cases hdrop'
        · next hv' =>
          rw [hv] at hv'
          cases hv'
      · intro sl hsl cid hcid
        rcases List.mem_cons.mp hsl with rfl | hsl
        · rw [hl] at hcid
          obtain rfl := Option.some.inj hcid
          have hcell1 : s1.cells[cid0]? =
              some { slot := 0, value := s.stack.getD sl Value.nil } := by
            have hgd : s.stack.getD sl Value.nil = v := by
              rw [List.getD_eq_getElem?_getD, hv]
              rfl
            rw [hgd]
            show (s.cells.set cid0 ({ slot := 0, value := v }))[cid0]? = _
            rw [List.getElem?_set_self (List.getElem?_eq_some_iff.mp hc0).1]
          constructor
          · rw [huntouched cid0 hcid0_not_rest]
            exact hcell1
          · rw [hout sl hslotrest]
            exact lookupNat_filter_self sl s.upvalues
        · have hne : sl ≠ slot := fun hh => hslotrest (hh ▸ hsl)
          have hcid1 : lookupNat sl s1.upvalues = some cid := by
            rw [hlookup1 sl hne]
            exact hcid
          have := hclose sl hsl cid hcid1
          refine ⟨?_, this.2⟩
          rw [this.1]
      · intro cid hcid
        have hne0 : cid ≠ cid0 := by
          intro hh
          exact hcid slot (List.mem_cons_self _ _) (hh ▸ hl)
        have h1 : s1.cells[cid]? = s.cells[cid]? := by
          show (s.cells.set cid0 _)[cid]? = s.cells[cid]?
          rw [List.getElem?_set_ne (fun hh => hne0 hh.symm)]
        rw [← h1]
        refine huntouched cid ?_
        intro sl hsl hcontra
        have hne : sl ≠ slot := fun hh => hslotrest (hh ▸ hsl)
        rw [hlookup1 sl hne] at hcontra
        exact hcid sl (List.mem_cons_of_mem _ hsl) hcontra
      · intro sl hsl
        have hne : sl ≠ slot := fun hh => hsl (hh ▸ List.mem_cons_self _ _)
        rw [hout sl (fun hmem => hsl (List.mem_cons_of_mem _ hmem))]
        exact hlookup1 sl hne

/-- C1: executing `Return` when at least one frame remains after popping
the current frame overwrites `stack[last.stack_offset]` with the popped
return value `r`, closes the registered open upvalue of every slot in
`last.stack_offset + 1 .. sp` with that slot's current value (removing its
registry entry), truncates the operand stack to length
`last.stack_offset + 1`, and leaves the slots below `last.stack_offset`
unchanged. -/
theorem c1_return_closes_and_truncates (s : VM) (last : Frame) (r : Value)
    (hf : s.frames.getLast? = some last)
    (hf2 : s.frames.dropLast ≠ [])
    (hr : s.stack.getLast? = some r)
    (hlen : last.stack_offset + 2 ≤ s.stack.length)
    (hreg : RegInv s) :
    ∃ s', evalOp s Op.ret = EvalRes.ok OpResult.cont s' ∧
      s'.stack.length = last.stack_offset + 1 ∧
      s'.stack[last.stack_offset]? = some r ∧
      (∀ i, i < last.stack_offset → s'.stack[i]? = s.stack[i]?) ∧
      (∀ slot cid, last.stack_offset + 1 ≤ slot → slot + 1 < s.stack.length →
        lookupNat slot s.upvalues = some cid →
        s'.cells[cid]? =
          some { slot := 0, value := s.stack.getD slot Value.nil } ∧
        lookupNat slot s'.upvalues = none) := by
  have hpop : popStack s.stack = some (r, s.stack.dropLast) := by
    unfold popStack
    rw [hr]
  have hlen0 : s.stack.dropLast.length = s.stack.length - 1 :=
    List.length_dropLast _
  have hoff : last.stack_offset < s.stack.dropLast.length := by omega
  have hreg2 :
      RegInv { s with frames := s.frames.dropLast,
                      stack := s.stack.dropLast.set last.stack_offset r } :=
    regInv_of_eq rfl rfl hreg
  have hbound : ∀ sl ∈ List.range' (last.stack_offset + 1)
      (s.stack.dropLast.length - (last.stack_offset + 1)),
      sl < ({ s with frames := s.frames.dropLast,
                     stack := s.stack.dropLast.set last.stack_offset r } :
        VM).stack.length := by
    intro sl hsl
    rw [List.mem_range'_1] at hsl
    have hsetlen : (s.stack.dropLast.set last.stack_offset r).length =
        s.stack.dropLast.length := List.length_set ..
    show sl < (s.stack.dropLast.set last.stack_offset r).length
    omega
  obtain ⟨s3, hsw, hstk3, hfrm3, hreg3, hclose3, hun3, hout3⟩ :=
    sweepClose_spec (List.nodup_range' _ _) hreg2 hbound
  obtain ⟨f2, hf2'⟩ : ∃ f2, (s.frames.dropLast).getLast? = some f2 := by
    cases hgl : (s.frames.dropLast).getLast? with
    | none => exact absurd (List.getLast?_eq_none_iff.mp hgl) hf2
    | some f2 => exact ⟨f2, rfl⟩
  have hgl3 : s3.frames.getLast? = some f2 := by
    rw [hfrm3]
    exact hf2'
  have hstk3' : s3.stack = s.stack.dropLast.set last.stack_offset r := hstk3
  have hb2 :
      ({ s3 with stack := s3.stack.take (last.stack_offset + 1) } :
        VM).bumpIp =
      some { s3 with stack := s3.stack.take (last.stack_offset + 1),
                     frames := s3.frames.dropLast ++
                       [{ f2 with ip := f2.ip + 1 }] } := by
    unfold VM.bumpIp
    split
    · next hnone =>
      have h2 : s3.frames.getLast? = none := hnone
      rw [hgl3] at h2
      cases h2
    · next f' hsome =>
      have h2 : s3.frames.getLast? = some f' := hsome
      rw [hgl3] at h2
      obtain rfl := Option.some.inj h2
      rfl
  have hbump :
      okBump { s3 with stack := s3.stack.take (last.stack_offset + 1) } =
      EvalRes.ok OpResult.cont
        { s3 with stack := s3.stack.take (last.stack_offset + 1),
                  frames := s3.frames.dropLast ++
                    [{ f2 with ip := f2.ip + 1 }] } := by
    unfold okBump
    rw [hb2]
  refine ⟨{ s3 with stack := s3.stack.take (last.stack_offset + 1),
                    frames := s3.frames.dropLast ++
                      [{ f2 with ip := f2.ip + 1 }] },
    ?_, ?_, ?_, ?_, ?_⟩
  · show evalOp s Op.ret = _
    simp only [evalOp, evalReturn]
    split
    · next hnone =>
      rw [hf] at hnone
      cases hnone
    · next last' hlast' =>
      rw [hf] at hlast'
      obtain rfl := Option.some.inj hlast'
      split
      · next hemp =>
        exact absurd (List.isEmpty_eq_true.mp hemp) hf2
      · next hemp =>
        split
        · next hp' =>
          have h2 : popStack s.stack = none := hp'
          rw [hpop] at h2
          cases h2
        · next r' st' hp' =>
          have hp2 : popStack s.stack = some (r', st') := hp'
          rw [hpop] at hp2
          simp only [Option.some.injEq, Prod.mk.injEq] at hp2
          obtain ⟨rfl, rfl⟩ := hp2
          split
          · next hlt =>
            split
            · next hswn =>
              have h2 : sweepClose (List.range' (last.stack_offset + 1)
                  (s.stack.dropLast.length - (last.stack_offset + 1)))
                  { s with frames := s.frames.dropLast,
                           stack :=
                             s.stack.dropLast.set last.stack_offset r } =
                  none := hswn
              rw [hsw] at h2
              cases h2
            · next s3' hsw' =>
              have h2 : sweepClose (List.range' (last.stack_offset + 1)
                  (s.stack.dropLast.length - (last.stack_offset + 1)))
                  { s with frames := s.frames.dropLast,
                           stack :=
                             s.stack.dropLast.set last.stack_offset r } =
                  some s3' := hsw'
              rw [hsw] at h2
              obtain rfl := Option.some.inj h2
              exact hbump
          · next hnlt =>
            exact absurd hoff hnlt
  · show (s3.stack.take (last.stack_offset + 1)).length =
      last.stack_offset + 1
    rw [List.length_take, hstk3', List.length_set]
    omega
  · show (s3.stack.take (last.stack_offset + 1))[last.stack_offset]? = some r
    rw [List.getElem?_take_of_lt (by omega), hstk3']
    rw [List.getElem?_set_self hoff]
  · intro i hi
    show (s3.stack.take (last.stack_offset + 1))[i]? = s.stack[i]?
    rw [List.getElem?_take_of_lt (by omega), hstk3']
    rw [List.getElem?_set_ne (by omega)]
    rw [List.dropLast_eq_take]
    rw [List.getElem?_take_of_lt (by omega)]
  · intro slot cid hge hlt hcid
    have hmem : slot ∈ List.range' (last.stack_offset + 1)
        (s.stack.dropLast.length - (last.stack_offset + 1)) := by
      rw [List.mem_range'_1]
      omega
    have hcl := hclose3 slot hmem cid hcid
    have hv' : (s.stack.dropLast.set last.stack_offset r).getD slot
        Value.nil = s.stack.getD slot Value.nil := by
      rw [List.getD_eq_getElem?_getD, List.getD_eq_getElem?_getD]
      rw [List.getElem?_set_ne (by omega)]
      rw [List.dropLast_eq_take]
      rw [List.getElem?_take_of_lt (by omega)]
    constructor
    · show s3.cells[cid]? =
        some { slot := 0, value := s.stack.getD slot Value.nil }
      have h2 : s3.cells[cid]? =
          some { slot := 0,
                 value := (s.stack.dropLast.set last.stack_offset r).getD
                   slot Value.nil } := hcl.1
      rw [h2, hv']
    · show lookupNat slot s3.upvalues = none
      exact hcl.2

/-! ### Pointwise evaluation equations for the plumbing -/

theorem okBump_eq {s0 : VM} {f : Frame} (hf : s0.frames.getLast? = some f) :
    okBump s0 = EvalRes.ok OpResult.cont
      { s0 with frames := s0.frames.dropLast ++
          [{ f with ip := f.ip + 1 }] } := by
  have hb2 : s0.bumpIp = some
      { s0 with frames := s0.frames.dropLast ++
          [{ f with ip := f.ip + 1 }] } := by
    unfold VM.bumpIp
    split
    · next hnone =>
      rw [hf] at hnone
      cases hnone
    · next f' hsome =>
      rw [hf] at hsome
      obtain rfl := Option.some.inj hsome
      rfl
  unfold okBump
  rw [hb2]

theorem bumpOk_eq {s0 sb : VM} (hb : s0.bumpIp = some sb) :
    bumpOk s0 = CheckRes.ok sb := by
  unfold bumpOk
  rw [hb]

theorem setIp_eq {s0 : VM} {f : Frame} (hf : s0.frames.getLast? = some f)
    (t : Nat) :
    s0.setIp t = some
      { s0 with frames := s0.frames.dropLast ++ [{ f with ip := t }] } := by
  unfold VM.setIp
  split
  · next hnone =>
    rw [hf] at hnone
    cases hnone
  · next f' hsome =>
    rw [hf] at hsome
    obtain rfl := Option.some.inj hsome
    rfl

theorem mkError_eq {s0 : VM} {f : Frame} {b : Block}
    (hf : s0.frames.getLast? = some f) (hb : s0.blocks[f.block]? = some b)
    (k : ErrorKind) (m : Option String) :
    s0.mkError k m = some
      { kind := k, file := b.file, line := b.lineAt f.ip, message := m } := by
  unfold VM.mkError
  split
  · next hnone =>
    rw [hf] at hnone
    cases hnone
  · next f' hsome =>
    rw [hf] at hsome
    obtain rfl := Option.some.inj hsome
    split
    · next hbn =>
      rw [hb] at hbn
      cases hbn
    · next b' hb' =>
      rw [hb] at hb'
      obtain rfl := Option.some.inj hb'
      rfl

theorem errE_eq {s0 : VM} {f : Frame} {b : Block}
    (hf : s0.frames.getLast? = some f) (hb : s0.blocks[f.block]? = some b)
    (k : ErrorKind) (m : Option String) :
    errE s0 k m = EvalRes.err
      { kind := k, file := b.file, line := b.lineAt f.ip, message := m }
      s0 := by
  unfold errE
  rw [mkError_eq hf hb]

theorem errC_eq {s0 : VM} {f : Frame} {b : Block}
    (hf : s0.frames.getLast? = some f) (hb : s0.blocks[f.block]? = some b)
    (k : ErrorKind) (m : Option String) :
    errC s0 k m = CheckRes.err
      { kind := k, file := b.file, line := b.lineAt f.ip, message := m }
      s0 := by
  unfold errC
  rw [mkError_eq hf hb]

/-- `PartialEq` never equates anything with `UnknownType`. -/
theorem tyEq_unknown_right (t : Ty) : tyEq t Ty.unknownType = false := by
  cases t <;> rfl

/-! ### Concrete fixtures -/

/-- A minimal block backing the concrete machine states below. -/
def mainBlock : Block :=
  { ty := Ty.function [] Ty.void, ups := [], name := "main", file := "m",
    ops := [Op.ret], line_offsets := [], line := 0 }

/-! ### C2 -/

def c2vm : VM :=
  { VM.new with blocks := [mainBlock],
                stack := [Value.int 7, Value.int 8],
                frames := [{ stack_offset := 0, block := 0, ip := 0 }] }

/-- C2 counterexample: calling with an `Int` at `base` does not produce an
`InvalidProgram` error value — the VM takes the `unreachable!` host abort
(the distinguished `abort` outcome, disjoint from `err`). -/
theorem c2_counterexample : evalOp c2vm (Op.call 1) = EvalRes.abort := rfl

/-- `true` for every value the `Call` dispatch has no case for. -/
def notCallable : Value → Bool
  | Value.blob _ => false
  | Value.function _ _ => false
  | Value.externFunction _ => false
  | _ => true

/-- C2 amended: when the value at `base = sp - n - 1` is neither a Blob, a
Function, nor an ExternFunction, `Call(n)` aborts via the host panic
(`unreachable!`); no runtime `Error` value is produced. -/
theorem c2_call_noncallable_aborts (s : VM) (n : Nat) (v : Value)
    (hlen : n + 1 ≤ s.stack.length)
    (hv : s.stack[s.stack.length - 1 - n]? = some v)
    (hnc : notCallable v = true) :
    evalOp s (Op.call n) = EvalRes.abort := by
  cases v
  case blob i => exact absurd hnc (by simp [notCallable])
  case function u b => exact absurd hnc (by simp [notCallable])
  case externFunction i => exact absurd hnc (by simp [notCallable])
  all_goals (
    simp only [evalOp, evalCall]
    rw [if_neg (by omega)]
    rw [hv])

theorem c2_witness : evalOp c2vm (Op.call 1) = EvalRes.abort :=
  c2_call_noncallable_aborts c2vm 1 (Value.int 7) (by decide) rfl (by decide)

/-! ### C3 -/

def c3blob : Blob := { name := "A", name_to_field := [("x", 0, Ty.int)] }

def c3vm : VM :=
  { VM.new with blocks := [mainBlock], blobs := [c3blob],
                stack := [Value.blob 0, Value.int 5],
                frames := [{ stack_offset := 0, block := 0, ip := 0 }] }

def c3vmAfter : VM :=
  { c3vm with stack := [Value.blob 0, Value.blobInstance 0 0],
              instances := [[Value.nil]],
              frames := [{ stack_offset := 0, block := 0, ip := 1 }] }

/-- C3 counterexample: `Call(1)` on a Blob callee pops the *top* of the
stack (the argument), not the callee at `base`: afterwards the Blob value
is still at `base` and the stack has two entries, contradicting the claim
that the instance replaces the callee and the arguments are discarded. -/
theorem c3_counterexample :
    evalOp c3vm (Op.call 1) = EvalRes.ok OpResult.cont c3vmAfter ∧
    c3vmAfter.stack[0]? = some (Value.blob 0) ∧
    c3vmAfter.stack.length = 2 :=
  ⟨rfl, rfl, rfl⟩

/-- C3 amended: `Call(n)` on a Blob callee at `base = sp - n - 1`
allocates a BlobInstance with one `Nil` cell per field, then pops only
the single top stack value and pushes the instance. The stack length is
unchanged, the instance is the new top, and every entry below the old
top is untouched; hence only when `n = 0` does the instance replace the
callee, while for `n ≥ 1` the remaining arguments stay in place and the
`Blob` value is still at `base`. -/
theorem c3_call_blob_pops_top_only (s : VM) (n blobId : Nat)
    (blob : Blob) (f : Frame)
    (hn : n + 1 ≤ s.stack.length)
    (hv : s.stack[s.stack.length - 1 - n]? = some (Value.blob blobId))
    (hb : s.blobs[blobId]? = some blob)
    (hf : s.frames.getLast? = some f) :
    evalOp s (Op.call n) = EvalRes.ok OpResult.cont
      { s with
        stack := s.stack.dropLast ++
          [Value.blobInstance blobId s.instances.length],
        instances := s.instances ++
          [List.replicate blob.name_to_field.length Value.nil],
        frames := s.frames.dropLast ++ [{ f with ip := f.ip + 1 }] } ∧
    (s.stack.dropLast ++
      [Value.blobInstance blobId s.instances.length]).length =
        s.stack.length ∧
    (s.stack.dropLast ++
      [Value.blobInstance blobId s.instances.length]).getLast? =
        some (Value.blobInstance blobId s.instances.length) ∧
    (∀ i, i < s.stack.length - 1 →
      (s.stack.dropLast ++
        [Value.blobInstance blobId s.instances.length])[i]? =
          s.stack[i]?) ∧
    (1 ≤ n →
      (s.stack.dropLast ++
        [Value.blobInstance blobId
          s.instances.length])[s.stack.length - 1 - n]? =
            some (Value.blob blobId)) := by
  have hpres : ∀ i, i < s.stack.length - 1 →
      (s.stack.dropLast ++
        [Value.blobInstance blobId s.instances.length])[i]? =
          s.stack[i]? := by
    intro i hi
    have hdl : i < s.stack.dropLast.length := by
      rw [List.length_dropLast]
      exact hi
    rw [List.getElem?_append_left hdl, List.dropLast_eq_take,
        List.getElem?_take_of_lt]
    exact hi
  refine ⟨?_, ?_, List.getLast?_concat _, hpres, ?_⟩
  · simp only [evalOp, evalCall]
    rw [if_neg (by omega)]
    split
    · next hnone =>
      rw [hv] at hnone
      cases hnone
    · next callee hcallee =>
      rw [hv] at hcallee
      obtain rfl := Option.some.inj hcallee
      simp only [hb]
      exact okBump_eq hf
  · rw [List.length_append, List.length_dropLast]
    simp only [List.length_singleton]
    omega
  · intro hn1
    rw [hpres _ (by omega)]
    exact hv

theorem c3_witness :
    evalOp c3vm (Op.call 1) = EvalRes.ok OpResult.cont
      { c3vm with
        stack := c3vm.stack.dropLast ++
          [Value.blobInstance 0 c3vm.instances.length],
        instances := c3vm.instances ++
          [List.replicate c3blob.name_to_field.length Value.nil],
        frames := c3vm.frames.dropLast ++
          [{ stack_offset := 0, block := 0, ip := 0 + 1 }] } ∧
    (c3vm.stack.dropLast ++
      [Value.blobInstance 0 c3vm.instances.length]).length =
        c3vm.stack.length ∧
    (c3vm.stack.dropLast ++
      [Value.blobInstance 0 c3vm.instances.length]).getLast? =
        some (Value.blobInstance 0 c3vm.instances.length) ∧
    (∀ i, i < c3vm.stack.length - 1 →
      (c3vm.stack.dropLast ++
        [Value.blobInstance 0 c3vm.instances.length])[i]? =
          c3vm.stack[i]?) ∧
    (1 ≤ 1 →
      (c3vm.stack.dropLast ++
        [Value.blobInstance 0
          c3vm.instances.length])[c3vm.stack.length - 1 - 1]? =
            some (Value.blob 0)) :=
  c3_call_blob_pops_top_only c3vm 1 0 c3blob
    { stack_offset := 0, block := 0, ip := 0 } (by decide) rfl rfl rfl

/-! ### C5 -/

def c5vm : VM :=
  { VM.new with blocks := [mainBlock],
                stack := [Value.int 1, Value.int 2],
                frames := [{ stack_offset := 0, block := 0, ip := 0 }] }

/-- C5 counterexample: with no upvalue registered over the just-freed
slot, `PopUpvalue` hits the `unreachable!` in `drop_upvalue` — a host
abort — instead of having "no further effect". -/
theorem c5_counterexample : evalOp c5vm Op.popUpvalue = EvalRes.abort := rfl

/-- C5 amended: `PopUpvalue` pops the top value; if an open upvalue is
registered over the just-freed slot it is closed with the popped value and
removed from the registry; if none is registered the VM aborts via the
`unreachable!` in `drop_upvalue`. -/
theorem c5_popupvalue_closes_or_aborts (s : VM) (v : Value)
    (st : List Value) (f : Frame)
    (hstack : s.stack = st ++ [v])
    (hf : s.frames.getLast? = some f) :
    (lookupNat st.length s.upvalues = none →
      evalOp s Op.popUpvalue = EvalRes.abort) ∧
    (∀ cid c, lookupNat st.length s.upvalues = some cid →
      s.cells[cid]? = some c →
      evalOp s Op.popUpvalue = EvalRes.ok OpResult.cont
        { s with stack := st,
                 cells := s.cells.set cid ({ slot := 0, value := v }),
                 upvalues := s.upvalues.filter
                   (fun p => p.1 != st.length),
                 frames := s.frames.dropLast ++
                   [{ f with ip := f.ip + 1 }] }) := by
  have hpop : popStack s.stack = some (v, st) := by
    rw [hstack]
    exact popStack_concat st v
  constructor
  · intro hnone
    have hdrop : VM.drop_upvalue { s with stack := st } st.length v = none :=
      drop_upvalue_none hnone
    simp only [evalOp]
    rw [hpop]
    simp only [hdrop]
  · intro cid c hcid hc
    have hdrop := drop_upvalue_eq (s := { s with stack := st })
      (v := v) hcid hc
    simp only [evalOp]
    rw [hpop]
    simp only [hdrop]
    exact okBump_eq hf

def c5vm2 : VM :=
  { VM.new with blocks := [mainBlock],
                stack := [Value.int 1, Value.int 2],
                frames := [{ stack_offset := 0, block := 0, ip := 0 }],
                upvalues := [(1, 0)],
                cells := [{ slot := 1, value := Value.nil }] }

theorem c5_witness :
    (lookupNat 1 c5vm2.upvalues = none →
      evalOp c5vm2 Op.popUpvalue = EvalRes.abort) ∧
    (∀ cid c, lookupNat 1 c5vm2.upvalues = some cid →
      c5vm2.cells[cid]? = some c →
      evalOp c5vm2 Op.popUpvalue = EvalRes.ok OpResult.cont
        { c5vm2 with stack := [Value.int 1],
                     cells := c5vm2.cells.set cid
                       ({ slot := 0, value := Value.int 2 }),
                     upvalues := c5vm2.upvalues.filter
                       (fun p => p.1 != 1),
                     frames := c5vm2.frames.dropLast ++
                       [{ stack_offset := 0, block := 0,
                          ip := 0 + 1 }] }) :=
  c5_popupvalue_closes_or_aborts c5vm2 (Value.int 2) [Value.int 1]
    { stack_offset := 0, block := 0, ip := 0 } rfl rfl

/-! ### C7 -/

def c7vm : VM :=
  { VM.new with blocks := [mainBlock], stack := [Value.int 0],
                frames := [{ stack_offset := 0, block := 0, ip := 0 }] }

/-- C7 counterexample: at runtime a popped non-Bool (here `Int 0`) is not
reported as a type error — `JmpFalse` pops it and silently falls through
to the next opcode. -/
theorem c7_counterexample :
    evalOp c7vm (Op.jmpFalse 5) = EvalRes.ok OpResult.cont
      { c7vm with stack := [],
                  frames := [{ stack_offset := 0, block := 0, ip := 1 }] } :=
  rfl

/-- C7 amended: at runtime `JmpFalse` pops one value, jumps exactly when
it is `Bool(false)` and otherwise (including every non-Bool value) falls
through without any error; the non-Bool type error is produced only by the
typechecker's `check_op`. -/
theorem c7_jmpfalse_runtime_and_check (s : VM) (v : Value)
    (st : List Value) (f : Frame) (bk : Block) (target : Nat)
    (hstack : s.stack = st ++ [v])
    (hf : s.frames.getLast? = some f)
    (hbk : s.blocks[f.block]? = some bk) :
    (v = Value.bool false →
      evalOp s (Op.jmpFalse target) = EvalRes.ok OpResult.cont
        { s with stack := st,
                 frames := s.frames.dropLast ++
                   [{ f with ip := target }] }) ∧
    (v ≠ Value.bool false →
      evalOp s (Op.jmpFalse target) = EvalRes.ok OpResult.cont
        { s with stack := st,
                 frames := s.frames.dropLast ++
                   [{ f with ip := f.ip + 1 }] }) ∧
    (∀ t, asType s v = some t → (∀ bv, v ≠ Value.bool bv) →
      checkOp s (Op.jmpFalse target) = CheckRes.err
        { kind := ErrorKind.typeError (Op.jmpFalse target) [t],
          file := bk.file, line := bk.lineAt f.ip, message := none }
        { s with stack := st }) := by
  have hpop : popStack s.stack = some (v, st) := by
    rw [hstack]
    exact popStack_concat st v
  have hf2 : ({ s with stack := st } : VM).frames.getLast? = some f := hf
  have hbk2 : ({ s with stack := st } : VM).blocks[f.block]? = some bk := hbk
  refine ⟨?_, ?_, ?_⟩
  · intro hvf
    subst hvf
    simp only [evalOp]
    rw [hpop]
    simp only [setIp_eq hf2]
  · intro hne
    simp only [evalOp]
    rw [hpop]
    cases v
    case bool b =>
      cases b
      · exact absurd rfl hne
      · exact okBump_eq hf2
    all_goals exact okBump_eq hf2
  · intro t hat hnb
    simp only [checkOp]
    unfold checkJmpFalse
    rw [hpop]
    cases v
    case bool b => exact absurd rfl (hnb b)
    all_goals (simp only [hat]; exact errC_eq hf2 hbk2 _ _)

def c7vm2 : VM :=
  { VM.new with blocks := [mainBlock], stack := [Value.int 0],
                frames := [{ stack_offset := 0, block := 0, ip := 0 }] }

theorem c7_witness :
    (Value.int 0 = Value.bool false →
      evalOp c7vm2 (Op.jmpFalse 5) = EvalRes.ok OpResult.cont
        { c7vm2 with stack := [],
                     frames := c7vm2.frames.dropLast ++
                       [{ stack_offset := 0, block := 0, ip := 5 }] }) ∧
    (Value.int 0 ≠ Value.bool false →
      evalOp c7vm2 (Op.jmpFalse 5) = EvalRes.ok OpResult.cont
        { c7vm2 with stack := [],
                     frames := c7vm2.frames.dropLast ++
                       [{ stack_offset := 0, block := 0, ip := 0 + 1 }] }) ∧
    (∀ t, asType c7vm2 (Value.int 0) = some t →
      (∀ bv, Value.int 0 ≠ Value.bool bv) →
      checkOp c7vm2 (Op.jmpFalse 5) = CheckRes.err
        { kind := ErrorKind.typeError (Op.jmpFalse 5) [t],
          file := mainBlock.file,
          line := mainBlock.lineAt
            ({ stack_offset := 0, block := 0, ip := 0 } : Frame).ip,
          message := none }
        { c7vm2 with stack := [] }) :=
  c7_jmpfalse_runtime_and_check c7vm2 (Value.int 0) [] 
    { stack_offset := 0, block := 0, ip := 0 } mainBlock 5 rfl rfl rfl

/-! ### C8 -/

def c8vm : VM :=
  { VM.new with blocks := [mainBlock],
                stack := [Value.int 1, Value.int 2],
                frames := [{ stack_offset := 0, block := 0, ip := 0 }] }

/-- C8 (code bug): a failing `Set` on a non-instance operand reports
`RuntimeTypeError` whose payload opcode is `Op::Get` — not `Op::Set` as
the spec and the typechecker's own `Set` arm use — and the payload values
carry only the instance-position operand. -/
theorem c8_set_error_carries_get_opcode :
    evalOp c8vm (Op.set ("x")) = EvalRes.err
      { kind := ErrorKind.runtimeTypeError (Op.get ("x")) [Value.int 1],
        file := "m", line := 0, message := none }
      { c8vm with stack := [] } := rfl

/-! ### C10 -/

/-- C10: at runtime `Assert` errors only on the exact value
`Bool(false)`; any other popped value — `Bool(true)` or a non-Bool such as
`Int` or `Nil` — succeeds silently and pushes `Bool(true)`. -/
theorem c10_assert_only_bool_false (s : VM) (v : Value) (st : List Value)
    (f : Frame) (bk : Block)
    (hstack : s.stack = st ++ [v])
    (hf : s.frames.getLast? = some f)
    (hbk : s.blocks[f.block]? = some bk) :
    (v ≠ Value.bool false →
      evalOp s Op.assert = EvalRes.ok OpResult.cont
        { s with stack := st ++ [Value.bool true],
                 frames := s.frames.dropLast ++
                   [{ f with ip := f.ip + 1 }] }) ∧
    (v = Value.bool false →
      evalOp s Op.assert = EvalRes.err
        { kind := ErrorKind.assert, file := bk.file, line := bk.lineAt f.ip,
          message := none } { s with stack := st }) := by
  have hpop : popStack s.stack = some (v, st) := by
    rw [hstack]
    exact popStack_concat st v
  have hf2 : ({ s with stack := st ++ [Value.bool true] } :
      VM).frames.getLast? = some f := hf
  have hf3 : ({ s with stack := st } : VM).frames.getLast? = some f := hf
  have hbk3 : ({ s with stack := st } : VM).blocks[f.block]? = some bk := hbk
  constructor
  · intro hne
    simp only [evalOp]
    rw [hpop]
    cases v
    case bool b =>
      cases b
      · exact absurd rfl hne
      · exact okBump_eq hf2
    all_goals exact okBump_eq hf2
  · intro hvf
    subst hvf
    simp only [evalOp]
    rw [hpop]
    exact errE_eq hf3 hbk3 _ _

def c10vm : VM :=
  { VM.new with blocks := [mainBlock], stack := [Value.nil],
                frames := [{ stack_offset := 0, block := 0, ip := 0 }] }

theorem c10_witness :
    (Value.nil ≠ Value.bool false →
      evalOp c10vm Op.assert = EvalRes.ok OpResult.cont
        { c10vm with stack := [Value.bool true],
                     frames := c10vm.frames.dropLast ++
                       [{ stack_offset := 0, block := 0, ip := 0 + 1 }] }) ∧
    (Value.nil = Value.bool false →
      evalOp c10vm Op.assert = EvalRes.err
        { kind := ErrorKind.assert, file := mainBlock.file,
          line := mainBlock.lineAt
            ({ stack_offset := 0, block := 0, ip := 0 } : Frame).ip,
          message := none } { c10vm with stack := [] }) :=
  c10_assert_only_bool_false c10vm Value.nil []
    { stack_offset := 0, block := 0, ip := 0 } mainBlock rfl rfl rfl

/-! ### C4 -/

/-- C4: every VM state reachable from a state satisfying the registry
invariant (under well-formed capture descriptors) satisfies it again: the
registry maps each absolute slot to at most one cell, distinct slots own
distinct cells, and no registered cell is closed; moreover a further
evaluation step never reopens a closed cell, so each cell transitions from
open to closed at most once. -/
theorem c4_upvalue_registry_invariants (s0 s : VM)
    (h0 : RegInv s0) (hw : WFCaps s0) (h : ReachableFrom s0 s) :
    RegInv s ∧
    (∀ t, Step s t → ∀ cid, cellClosed s cid → cellClosed t cid) := by
  have hi := reachable_inv h0 hw h
  refine ⟨hi.1, ?_⟩
  intro t hstep cid hc
  obtain ⟨op, r, hop, heval⟩ := hstep
  exact (evalOp_preserves hi.1 hi.2 heval).2.2 cid hc

def c4init : VM :=
  { VM.new with blocks := [mainBlock],
                stack := [Value.function [] 0],
                frames := [{ stack_offset := 0, block := 0, ip := 0 }] }

theorem c4_witness : RegInv c4init :=
  (c4_upvalue_registry_invariants c4init c4init
    (regInv_of_empty rfl)
    (by
      intro b hb e he hf
      have hb2 : b ∈ [mainBlock] := hb
      rcases List.mem_singleton.mp hb2 with rfl
      have he2 : e ∈ ([] : List (Nat × Bool × Ty)) := he
      cases he2)
    ReachableFrom.refl).1

/-! ### C6 -/

/-- C6: during typecheck `Define(Unknown)` accepts any stack-top value
(the match guard `top_type != Unknown` is vacuously true because
`PartialEq` never equates `Unknown` with anything, so the accepting arm
always fires), and `Define` with a known `ty` errors exactly when `ty` is
not structurally equal (`tyEq`, the source's `PartialEq`) to the type of
the stack top. -/
theorem c6_define_unknown_accepts_known_compares (s : VM) (top : Value)
    (topTy : Ty) (ty : Ty) (sb : VM) (f : Frame) (bk : Block)
    (htop : s.stack.getLast? = some top)
    (hty : asType s top = some topTy)
    (hb : s.bumpIp = some sb)
    (hf : s.frames.getLast? = some f)
    (hbk : s.blocks[f.block]? = some bk) :
    (checkOp s (Op.define Ty.unknownType) = CheckRes.ok sb) ∧
    (ty ≠ Ty.unknownType →
      ((tyEq ty topTy = true →
         checkOp s (Op.define ty) = CheckRes.ok sb) ∧
       (tyEq ty topTy = false →
         ∃ e, checkOp s (Op.define ty) = CheckRes.err e s ∧
           e.kind = ErrorKind.typeError (Op.define ty) [ty, topTy]))) := by
  constructor
  · simp only [checkOp]
    unfold checkDefine
    rw [htop]
    simp [hty, tyEq_unknown_right, bumpOk_eq hb]
  · intro hne
    constructor
    · intro heq
      simp only [checkOp]
      unfold checkDefine
      rw [htop]
      cases ty
      case unknownType => exact absurd rfl hne
      all_goals simp [hty, heq, bumpOk_eq hb]
    · intro hfe
      cases ty
      case unknownType => exact absurd rfl hne
      all_goals (
        simp only [checkOp]
        unfold checkDefine
        rw [htop]
        simp only [hty]
        rw [if_pos hfe]
        exact ⟨_, errC_eq hf hbk _ _, rfl⟩)

def c6vm : VM :=
  { VM.new with blocks := [mainBlock], stack := [Value.int 1],
                frames := [{ stack_offset := 0, block := 0, ip := 0 }] }

def c6sb : VM :=
  { c6vm with frames := [{ stack_offset := 0, block := 0, ip := 1 }] }

theorem c6_witness :
    (checkOp c6vm (Op.define Ty.unknownType) = CheckRes.ok c6sb) ∧
    (Ty.bool ≠ Ty.unknownType →
      ((tyEq Ty.bool Ty.int = true →
         checkOp c6vm (Op.define Ty.bool) = CheckRes.ok c6sb) ∧
       (tyEq Ty.bool Ty.int = false →
         ∃ e, checkOp c6vm (Op.define Ty.bool) = CheckRes.err e c6vm ∧
           e.kind = ErrorKind.typeError (Op.define Ty.bool)
             [Ty.bool, Ty.int]))) :=
  c6_define_unknown_accepts_known_compares c6vm (Value.int 1) Ty.int
    Ty.bool c6sb { stack_offset := 0, block := 0, ip := 0 } mainBlock
    rfl rfl rfl rfl rfl

/-! ### C9 -/

theorem bumpIp_eq {s0 : VM} {f : Frame} (hf : s0.frames.getLast? = some f) :
    s0.bumpIp = some
      { s0 with frames := s0.frames.dropLast ++
          [{ f with ip := f.ip + 1 }] } := by
  unfold VM.bumpIp
  split
  · next hnone =>
    rw [hf] at hnone
    cases hnone
  · next f' hsome =>
    rw [hf] at hsome
    obtain rfl := Option.some.inj hsome
    rfl

theorem okBump_ne_err {s0 : VM} {e : Error} {s' : VM} :
    okBump s0 ≠ EvalRes.err e s' := by
  unfold okBump
  split <;> simp

theorem bumpOk_ne_err {s0 : VM} {e : Error} {s' : VM} :
    bumpOk s0 ≠ CheckRes.err e s' := by
  unfold bumpOk
  split <;> simp

theorem abort_ne_err {e : Error} {s' : VM} :
    EvalRes.abort ≠ EvalRes.err e s' :=
  fun h => EvalRes.noConfusion h

/-- A runtime error leaves the frame stack untouched (every `error!` site
fires before the shared `ip += 1` epilogue and mutates only the operand
stack or the heaps). -/
theorem evalOp_err_frames {s : VM} {op : Op} {e : Error} {s' : VM}
    (h : evalOp s op = EvalRes.err e s') : s'.frames = s.frames := by
  cases op
  all_goals (
    simp only [evalOp, evalConstant, evalGet, evalSet, evalNeg, evalAdd,
      evalSub, evalMul, evalDiv, evalEqual, evalLess, evalGreater, evalAnd,
      evalOr, evalNot, evalCall, evalReturn] at h
    repeat' split at h
    all_goals first
      | cases h
      | exact absurd h okBump_ne_err
      | exact absurd h abort_ne_err
      | (rw [errE_err h]))

/-- A typecheck error leaves the frame stack untouched. -/
theorem checkOp_err_frames {s : VM} {op : Op} {e : Error} {s' : VM}
    (h : checkOp s op = CheckRes.err e s') : s'.frames = s.frames := by
  cases op
  all_goals (
    simp only [checkOp, checkConstant, checkGet, checkSet, checkReadUpvalue,
      checkAssignUpvalue, checkReturn, checkDefine, checkCall,
      checkJmpFalse] at h
    repeat' split at h
    all_goals first
      | exact absurd h bumpOk_ne_err
      | (rw [errC_err h])
      | (injection h with h1 h2; subst h1; subst h2;
         exact evalOp_err_frames (by assumption))
      | cases h)

def c9block : Block :=
  { ty := Ty.function [] Ty.void, ups := [], name := "main", file := "f",
    ops := [Op.illegal, Op.illegal], line_offsets := [], line := 0 }

def c9prog : Prog := { blocks := [c9block], blobs := [], functions := [] }

def c9err : Error :=
  { kind := ErrorKind.invalidProgram, file := "f", line := 0,
    message := none }

def c9final : VM :=
  { VM.new with blocks := [c9block], stack := [Value.function [] 0],
                frames := [{ stack_offset := 0, block := 0, ip := 2 }] }

/-- C9: `typecheck` succeeds iff every block produced zero errors; after
each erroring opcode the checker leaves the frame stack as it was and the
driver advances ip by exactly one; and a single run can accumulate several
diagnostics from one block (two `Illegal` opcodes yield two
`InvalidProgram` errors from the same block). -/
theorem c9_typecheck_success_and_error_accumulation :
    (∀ (s : VM) (p : Prog) (ls : List (List Error)) (s' : VM),
      typecheckPerBlock s p = some (ls, s') →
      (typecheck s p = some (Except.ok (), s') ↔ ∀ es ∈ ls, es = [])) ∧
    (∀ (s : VM) (op : Op) (e : Error) (s' : VM) (f : Frame),
      checkOp s op = CheckRes.err e s' → s.frames.getLast? = some f →
      s'.frames = s.frames ∧
      s'.bumpIp = some { s' with frames := s'.frames.dropLast ++
        [{ f with ip := f.ip + 1 }] }) ∧
    typecheckPerBlock VM.new c9prog = some ([[c9err, c9err]], c9final) ∧
    typecheck VM.new c9prog =
      some (Except.error [c9err, c9err], c9final) := by
  refine ⟨?_, ?_, ?_, ?_⟩
  · intro s p ls s' hper
    have hunf : typecheck s p =
        (if ls.flatten.isEmpty = true then some (Except.ok (), s')
         else some (Except.error ls.flatten, s')) := by
      unfold typecheck
      rw [hper]
    by_cases hemp : ls.flatten.isEmpty = true
    · rw [hunf, if_pos hemp]
      constructor
      · intro _
        exact List.flatten_eq_nil_iff.mp (List.isEmpty_eq_true.mp hemp)
      · intro _
        rfl
    · rw [hunf, if_neg hemp]
      constructor
      · intro hcontra
        simp at hcontra
      · intro hall
        exact absurd (List.isEmpty_eq_true.mpr
          (List.flatten_eq_nil_iff.mpr hall)) hemp
  · intro s op e s' f herr hf
    have hfr := checkOp_err_frames herr
    refine ⟨hfr, ?_⟩
    exact bumpIp_eq (by rw [hfr]; exact hf)
  · rfl
  · rfl

theorem c9_witness :
    typecheck VM.new c9prog = some (Except.ok (), c9final) ↔
      ∀ es ∈ [[c9err, c9err]], es = [] :=
  c9_typecheck_success_and_error_accumulation.1 VM.new c9prog
    [[c9err, c9err]] c9final (by rfl)


/-! ### C1 witness fixture: two frames, a registered open cell over slot 2 -/

def c1vm : VM :=
  { VM.new with blocks := [mainBlock],
                stack := [Value.function [] 0, Value.function [] 0,
                          Value.int 5, Value.int 7],
                frames := [{ stack_offset := 0, block := 0, ip := 0 },
                           { stack_offset := 1, block := 0, ip := 0 }],
                upvalues := [(2, 0)],
                cells := [{ slot := 2, value := Value.nil }] }

theorem c1_witness :
    ∃ s', evalOp c1vm Op.ret = EvalRes.ok OpResult.cont s' ∧
      s'.stack.length = 1 + 1 ∧
      s'.stack[1]? = some (Value.int 7) ∧
      (∀ i, i < 1 → s'.stack[i]? = c1vm.stack[i]?) ∧
      (∀ slot cid, 1 + 1 ≤ slot → slot + 1 < c1vm.stack.length →
        lookupNat slot c1vm.upvalues = some cid →
        s'.cells[cid]? =
          some { slot := 0, value := c1vm.stack.getD slot Value.nil } ∧
        lookupNat slot s'.upvalues = none) :=
  c1_return_closes_and_truncates c1vm
    { stack_offset := 1, block := 0, ip := 0 } (Value.int 7)
    rfl (by decide) rfl (by decide)
    ⟨by decide, by decide, by
      intro p hp
      have hp2 : p ∈ [((2 : Nat), (0 : Nat))] := hp
      simp only [List.mem_singleton] at hp2
      subst hp2
      exact ⟨{ slot := 2, value := Value.nil }, rfl, by decide⟩⟩

end Thidy
